import Mathlib

/-!
A shallow embedding of the particle-physics simulation engine
(`src/lib/physics.js` together with `src/lib/config.js`), and proofs about it.

JavaScript numbers are modelled as real numbers (`ℝ`); `Math.sqrt` is
`Real.sqrt`, `Math.acos` is `Real.arccos`, and so on.  `Math.random()` draws
are supplied by an explicit stream `ℕ → ℝ` threaded through the stateful
operations; operations return the remaining stream.  The JavaScript methods
mutate `this.particles` in place; here every operation maps the old state to
the new one.  Where the IEEE semantics of a division matters (`0/0 = NaN`),
an `Option`-valued variant marks the non-finite outcome as `none`; the plain
variants use Lean's total real division.
-/

/-- `config` of `src/lib/config.js`.  The shipped object sets
`onePhotonPerElectron: true` and never sets `enabled`; an absent JavaScript
field reads as `undefined`, which is falsy, so the shipped value of
`photonEmissionEnabled` is `false` (see `srcConfig`). -/
structure Config where
  photonEmissionEnabled : Bool
  onePhotonPerElectron : Bool

/-- The configuration object exactly as shipped in `src/lib/config.js`. -/
def srcConfig : Config := ⟨false, true⟩

/-- One particle record (`class Particle`, physics.js lines 7-30). -/
structure Particle where
  x : ℝ
  y : ℝ
  z : ℝ
  vx : ℝ
  vy : ℝ
  vz : ℝ
  charge : ℝ
  mass : ℝ
  fixed : Bool
  isPhoton : Bool
  energy : ℝ
  age : ℕ
  hasEmittedPhoton : Bool
  forceElectroX : ℝ
  forceElectroY : ℝ
  forceElectroZ : ℝ
  accelerationX : ℝ
  accelerationY : ℝ
  accelerationZ : ℝ

/-- A default particle, used as the out-of-range fallback of `List.getD`
(JavaScript array reads are always in range in the translated loops, so the
fallback value is never relevant to the semantics). -/
def particle0 : Particle :=
  ⟨0, 0, 0, 0, 0, 0, 0, 0, false, false, 0, 0, false, 0, 0, 0, 0, 0, 0⟩

instance : Inhabited Particle := ⟨particle0⟩

/-- The `Particle` constructor (physics.js lines 8-29): tracking fields start
at zero / `false`. -/
def newParticle (x y vx vy charge mass : ℝ) (fixed : Bool) (z vz : ℝ)
    (isPhoton : Bool) (energy : ℝ) : Particle :=
  { x := x, y := y, z := z, vx := vx, vy := vy, vz := vz,
    charge := charge, mass := mass, fixed := fixed, isPhoton := isPhoton,
    energy := energy, age := 0, hasEmittedPhoton := false,
    forceElectroX := 0, forceElectroY := 0, forceElectroZ := 0,
    accelerationX := 0, accelerationY := 0, accelerationZ := 0 }

/-- The simulation state and its parameters (`class Universe`, physics.js
lines 32-50). -/
structure Universe where
  size : ℝ
  electrostaticCoefficient : ℝ
  electronMass : ℝ
  photonEmissionSpeedThreshold : ℝ
  photonAbsorptionDistance : ℝ
  photonMinAgeForAbsorption : ℕ
  staticProtons : Bool
  strongForceEnabled : Bool
  strongForceCoefficient : ℝ
  gravityEnabled : Bool
  gravityCoefficient : ℝ
  groundGravityEnabled : Bool
  groundGravityCoefficient : ℝ
  mode3D : Bool
  particles : List Particle
  dt : ℝ

/-- The `Universe` constructor (physics.js lines 33-50) with its default
field values. -/
def mkUniverse (size electrostaticCoefficient : ℝ) : Universe :=
  { size := size, electrostaticCoefficient := electrostaticCoefficient,
    electronMass := 1, photonEmissionSpeedThreshold := 1e-3,
    photonAbsorptionDistance := 3 * 1e-3, photonMinAgeForAbsorption := 100,
    staticProtons := true, strongForceEnabled := false,
    strongForceCoefficient := 10, gravityEnabled := false,
    gravityCoefficient := 10, groundGravityEnabled := false,
    groundGravityCoefficient := 10, mode3D := false, particles := [],
    dt := 0.01 }

/-- Force vectors `{fx, fy, fz}` are triples of reals. -/
abbrev V3 : Type := ℝ × ℝ × ℝ

/-- Euclidean norm of a force / velocity triple. -/
noncomputable def v3Norm (v : V3) : ℝ :=
  Real.sqrt (v.1 * v.1 + v.2.1 * v.2.1 + v.2.2 * v.2.2)

/-- `calculateElectrostaticForce` (physics.js lines 84-102), with Lean's
total real division.  At `distance = 0` the JavaScript code computes
`0/0 = NaN`; that case is modelled faithfully by
`calculateElectrostaticForceFin` below. -/
noncomputable def calculateElectrostaticForce (U : Universe) (p1 p2 : Particle) : V3 :=
  let dx := p2.x - p1.x
  let dy := p2.y - p1.y
  let dz := if U.mode3D = true then p2.z - p1.z else 0
  let distanceSquared := dx * dx + dy * dy + dz * dz
  let distance := Real.sqrt distanceSquared
  let electrostaticForceMagnitude :=
    -(U.electrostaticCoefficient * p1.charge * p2.charge) / (distanceSquared + 0.01)
  (electrostaticForceMagnitude * (dx / distance),
   electrostaticForceMagnitude * (dy / distance),
   if U.mode3D = true then electrostaticForceMagnitude * (dz / distance) else 0)

/-- `calculateElectrostaticForce` under IEEE semantics: when `distance = 0`
each direction component is `0/0 = NaN` and the products with the magnitude
stay NaN, so no finite force vector is returned (`none`).  Otherwise every
division has a nonzero denominator (`distanceSquared + 0.01 > 0` always) and
the result is the finite vector computed by `calculateElectrostaticForce`. -/
noncomputable def calculateElectrostaticForceFin (U : Universe) (p1 p2 : Particle) :
    Option V3 :=
  let dx := p2.x - p1.x
  let dy := p2.y - p1.y
  let dz := if U.mode3D = true then p2.z - p1.z else 0
  let distanceSquared := dx * dx + dy * dy + dz * dz
  let distance := Real.sqrt distanceSquared
  if distance = 0 then none
  else some (calculateElectrostaticForce U p1 p2)

/-- `calculateStrongForce` (physics.js lines 133-152). -/
noncomputable def calculateStrongForce (U : Universe) (p1 p2 : Particle) : V3 :=
  let dx := p2.x - p1.x
  let dy := p2.y - p1.y
  let dz := if U.mode3D = true then p2.z - p1.z else 0
  let distanceSquared := dx * dx + dy * dy + dz * dz
  let distance := Real.sqrt distanceSquared
  let distanceQuartic := distanceSquared * distanceSquared
  let strongForceMagnitude := (U.strongForceCoefficient * 1e-10) / distanceQuartic
  (-strongForceMagnitude * (dx / distance),
   -strongForceMagnitude * (dy / distance),
   if U.mode3D = true then -strongForceMagnitude * (dz / distance) else 0)

/-- `calculateGravityForce` (physics.js lines 185-213): attraction toward the
constant point `(0.5, 0.5, 0.5)` (the z term is dropped in 2D mode). -/
noncomputable def calculateGravityForce (U : Universe) (particle : Particle) : V3 :=
  let dx := 0.5 - particle.x
  let dy := 0.5 - particle.y
  let dz := if U.mode3D = true then 0.5 - particle.z else 0
  let distanceSquared := dx * dx + dy * dy + dz * dz
  let distance := Real.sqrt distanceSquared
  if distance ≤ 1e-6 then (0, 0, 0)
  else
    let gravityForceMagnitude := particle.mass * U.gravityCoefficient * 1e-6
    (gravityForceMagnitude * (dx / distance),
     gravityForceMagnitude * (dy / distance),
     if U.mode3D = true then gravityForceMagnitude * (dz / distance) else 0)

/-- The displacement from a particle to the gravity center actually used by
`calculateGravityForce`: the constant `(0.5, 0.5)` plane point, with a z term
only in 3D mode. -/
noncomputable def gravityDelta (U : Universe) (particle : Particle) : V3 :=
  (0.5 - particle.x, 0.5 - particle.y,
   if U.mode3D = true then 0.5 - particle.z else 0)

/-- The distance to the gravity center tested by `calculateGravityForce`. -/
noncomputable def gravityDist (U : Universe) (particle : Particle) : ℝ :=
  v3Norm (gravityDelta U particle)

/-- `calculateGroundGravityForce` (physics.js lines 246-266). -/
noncomputable def calculateGroundGravityForce (U : Universe) (particle : Particle) : V3 :=
  let dy := 1.0 - particle.y
  if |dy| ≤ 1e-6 then (0, 0, 0)
  else (0, particle.mass * U.groundGravityCoefficient * 1e-6, 0)

/-- `calculateForce` (physics.js lines 534-561): electrostatic force plus the
strong force when enabled. -/
noncomputable def calculateForce (U : Universe) (p1 p2 : Particle) : V3 :=
  let electrostaticForce := calculateElectrostaticForce U p1 p2
  let strongForce :=
    if U.strongForceEnabled = true then calculateStrongForce U p1 p2 else ((0, 0, 0) : V3)
  (electrostaticForce.1 + strongForce.1,
   electrostaticForce.2.1 + strongForce.2.1,
   electrostaticForce.2.2 + strongForce.2.2)

/-- `shouldEmitPhoton` (physics.js lines 268-275); `r` is the value the
`Math.random()` call would return (it is only drawn when the speed reaches
the threshold).  The speed here always includes `vz`, even in 2D mode. -/
noncomputable def shouldEmitPhoton (U : Universe) (r : ℝ) (particle : Particle) : Bool :=
  let speed := Real.sqrt (particle.vx * particle.vx + particle.vy * particle.vy +
    particle.vz * particle.vz)
  if speed < U.photonEmissionSpeedThreshold then false
  else decide (r < 0.00001 * speed / U.photonEmissionSpeedThreshold)

/-- `managePhotonEmission` (physics.js lines 311-363).  Returns the updated
electron together with the new photon; the photon is `none` exactly when
`config.photonEmission.enabled` is falsy (the electron-side bookkeeping
happens unconditionally, before that check). -/
noncomputable def managePhotonEmission (cfg : Config) (U : Universe) (particle : Particle)
    (speed vx vy vz photonEnergyShare : ℝ) : Particle × Option Particle :=
  let initialKE := 0.5 * U.electronMass * speed * speed
  let photonEnergy := photonEnergyShare * initialKE
  let speedReductionFactor := 1 / Real.sqrt (1 - photonEnergyShare)
  let e := { particle with
    vx := particle.vx / speedReductionFactor
    vy := particle.vy / speedReductionFactor
    vz := if U.mode3D = true then particle.vz / speedReductionFactor else particle.vz
    hasEmittedPhoton := true }
  let newSpeed := speed / speedReductionFactor
  let photonSpeed := newSpeed
  let photonVx := (vx / speed) * photonSpeed
  let photonVy := (vy / speed) * photonSpeed
  let photonVz := if U.mode3D = true then (vz / speed) * photonSpeed else 0
  if cfg.photonEmissionEnabled = true then
    (e, some (newParticle particle.x particle.y photonVx photonVy 0 0 false
      particle.z photonVz true photonEnergy))
  else (e, none)

/-- The speed `checkAndEmitPhotons` computes for an electron and passes to
`managePhotonEmission` (physics.js lines 509-512): the z component is
included only in 3D mode. -/
noncomputable def emittedSpeedArg (U : Universe) (particle : Particle) : ℝ :=
  let vz := if U.mode3D = true then particle.vz else 0
  Real.sqrt (particle.vx * particle.vx + particle.vy * particle.vy + vz * vz)

/-- The full-velocity speed measured by `shouldEmitPhoton` (physics.js line
269), which includes `vz` unconditionally. -/
noncomputable def fullSpeed (particle : Particle) : ℝ :=
  Real.sqrt (particle.vx * particle.vx + particle.vy * particle.vy +
    particle.vz * particle.vz)

/-- The per-electron sweep of `checkAndEmitPhotons` (physics.js lines
499-521): returns the processed particle list, the buffered new photons (in
encounter order) and the remaining random stream.  One random draw is
consumed per electron whose full speed reaches the threshold. -/
noncomputable def emitSweep (cfg : Config) (U : Universe) :
    List Particle → (ℕ → ℝ) → List Particle × List Particle × (ℕ → ℝ)
  | [], rng => ([], [], rng)
  | particle :: rest, rng =>
    if 0 ≤ particle.charge ∨ particle.isPhoton = true then
      let out := emitSweep cfg U rest rng
      (particle :: out.1, out.2.1, out.2.2)
    else if cfg.onePhotonPerElectron = true ∧ particle.hasEmittedPhoton = true then
      let out := emitSweep cfg U rest rng
      (particle :: out.1, out.2.1, out.2.2)
    else
      let vz := if U.mode3D = true then particle.vz else 0
      let speed := emittedSpeedArg U particle
      let rng1 : ℕ → ℝ :=
        if fullSpeed particle < U.photonEmissionSpeedThreshold then rng
        else fun n => rng (n + 1)
      if shouldEmitPhoton U (rng 0) particle = true then
        let ep := managePhotonEmission cfg U particle speed particle.vx particle.vy vz 0.9
        let out := emitSweep cfg U rest rng1
        (ep.1 :: out.1,
         (match ep.2 with
          | some photon => photon :: out.2.1
          | none => out.2.1),
         out.2.2)
      else
        let out := emitSweep cfg U rest rng1
        (particle :: out.1, out.2.1, out.2.2)

/-- `checkAndEmitPhotons` (physics.js lines 496-527): the buffered photons
are appended to the collection only after the sweep. -/
noncomputable def checkAndEmitPhotons (cfg : Config) (rng : ℕ → ℝ) (U : Universe) :
    Universe × (ℕ → ℝ) :=
  let out := emitSweep cfg U U.particles rng
  ({ U with particles := out.1 ++ out.2.1 }, out.2.2)

/-- The distance between a photon and a candidate electron computed by
`handlePhotonElectronCollisions` (physics.js lines 406-409). -/
noncomputable def collisionDistance (U : Universe) (photon electron : Particle) : ℝ :=
  let dx := electron.x - photon.x
  let dy := electron.y - photon.y
  let dz := if U.mode3D = true then electron.z - photon.z else 0
  Real.sqrt (dx * dx + dy * dy + dz * dz)

/-- The absorption test of `handlePhotonElectronCollisions` (physics.js lines
403 and 412): the candidate is an electron (negative charge, not a photon),
it lies strictly inside the absorption distance, and the photon has reached
the minimum age. -/
noncomputable def absorbs (U : Universe) (photon electron : Particle) : Prop :=
  (electron.charge < 0 ∧ electron.isPhoton = false) ∧
  collisionDistance U photon electron < U.photonAbsorptionDistance ∧
  U.photonMinAgeForAbsorption ≤ photon.age

noncomputable instance (U : Universe) (photon electron : Particle) :
    Decidable (absorbs U photon electron) :=
  Classical.propDecidable _

/-- The energy-transfer update of an absorbing electron (physics.js lines
413-442).  When the electron is at rest a random direction is drawn: one
draw for `theta`, and one more for `phi` in 3D mode only. -/
noncomputable def absorbEnergy (U : Universe) (electron : Particle)
    (photonEnergy : ℝ) (rng : ℕ → ℝ) : Particle × (ℕ → ℝ) :=
  let currentSpeed := Real.sqrt (electron.vx * electron.vx +
    electron.vy * electron.vy + electron.vz * electron.vz)
  let currentKE := 0.5 * electron.mass * currentSpeed * currentSpeed
  let newKE := currentKE + photonEnergy
  let newSpeed := Real.sqrt (2 * newKE / electron.mass)
  if 0 < currentSpeed then
    let speedScale := newSpeed / currentSpeed
    ({ electron with
        vx := electron.vx * speedScale
        vy := electron.vy * speedScale
        vz := if U.mode3D = true then electron.vz * speedScale else electron.vz }, rng)
  else
    let theta := rng 0 * (2 * Real.pi)
    if U.mode3D = true then
      let phi := Real.arccos (2 * rng 1 - 1)
      ({ electron with
          vx := newSpeed * Real.sin phi * Real.cos theta
          vy := newSpeed * Real.sin phi * Real.sin theta
          vz := newSpeed * Real.cos phi }, fun n => rng (n + 2))
    else
      let phi := Real.pi / 2
      ({ electron with
          vx := newSpeed * Real.sin phi * Real.cos theta
          vy := newSpeed * Real.sin phi * Real.sin theta }, fun n => rng (n + 1))

/-- The inner electron loop of `handlePhotonElectronCollisions` (physics.js
lines 399-450) for one photon: scan the candidate indices in order, update
the first electron that absorbs, and stop (`break`).  Returns the updated
list, the remaining stream, and whether an absorption happened. -/
noncomputable def absorbScan (U : Universe) (photon : Particle) :
    List ℕ → List Particle → (ℕ → ℝ) → List Particle × (ℕ → ℝ) × Bool
  | [], ps, rng => (ps, rng, false)
  | j :: rest, ps, rng =>
    let electron := ps.getD j particle0
    if absorbs U photon electron then
      let upd := absorbEnergy U electron photon.energy rng
      (ps.set j upd.1, upd.2, true)
    else absorbScan U photon rest ps rng

/-- The outer photon loop of `handlePhotonElectronCollisions` (physics.js
lines 395-451): the state is the (in-place mutated) particle list, the
`photonsToRemove` index list, and the random stream.  Each index `i` that is
pushed is distinct, so the JavaScript `includes` de-duplication test never
fires and is omitted. -/
noncomputable def absorbSweep (U : Universe) :
    List ℕ → List Particle × List ℕ × (ℕ → ℝ) → List Particle × List ℕ × (ℕ → ℝ)
  | [], st => st
  | i :: rest, (ps, rem, rng) =>
    let photon := ps.getD i particle0
    if photon.isPhoton = true then
      let out := absorbScan U photon (List.range ps.length) ps rng
      absorbSweep U rest (out.1, if out.2.2 = true then rem ++ [i] else rem, out.2.1)
    else absorbSweep U rest (ps, rem, rng)

/-- The indices of the photons `handlePhotonElectronCollisions` marks for
removal on a given state and random stream. -/
noncomputable def removedIndices (rng : ℕ → ℝ) (U : Universe) : List ℕ :=
  (absorbSweep U (List.range U.particles.length) (U.particles, [], rng)).2.1

/-- The particle list after the collision sweep but before the removal
splices. -/
noncomputable def sweptParticles (rng : ℕ → ℝ) (U : Universe) : List Particle :=
  (absorbSweep U (List.range U.particles.length) (U.particles, [], rng)).1

/-- `handlePhotonElectronCollisions` (physics.js lines 391-459): runs the
sweep, then removes the marked photons by splicing in descending index order,
and reports how many were removed. -/
noncomputable def handlePhotonElectronCollisions (rng : ℕ → ℝ) (U : Universe) :
    Universe × ℕ × (ℕ → ℝ) :=
  let out := absorbSweep U (List.range U.particles.length) (U.particles, [], rng)
  ({ U with particles := out.2.1.reverse.foldl (fun l i => l.eraseIdx i) out.1 },
   out.2.1.length, out.2.2)

/-- Keep the entries of `ps` whose absolute index (starting at `k`) does not
lie in `rem`: the specification of what the descending `splice` loop leaves
behind. -/
def survivors (rem : List ℕ) : ℕ → List Particle → List Particle
  | _, [] => []
  | k, p :: ps =>
    if k ∈ rem then survivors rem (k + 1) ps else p :: survivors rem (k + 1) ps

/-- The body of the inner pairwise-force loop (physics.js lines 773-786):
skip photon `j`, otherwise add `calculateForce` of the pair to slot `i` of
the force array and subtract it from slot `j` (Newton's third law). -/
noncomputable def pairBody (U : Universe) (ps : List Particle) (i : ℕ)
    (forces : List V3) (j : ℕ) : List V3 :=
  if (ps.getD j particle0).isPhoton = true then forces
  else
    let force := calculateForce U (ps.getD i particle0) (ps.getD j particle0)
    let forces1 := forces.set i (forces.getD i 0 + force)
    forces1.set j (forces1.getD j 0 - force)

/-- The pairwise force accumulation of `step` (physics.js lines 758-788):
a zero-initialised force array, a double loop over index pairs `i < j`, both
loops skipping photons. -/
noncomputable def accumulatePairForces (U : Universe) (ps : List Particle) : List V3 :=
  (List.range ps.length).foldl
    (fun forces i =>
      if (ps.getD i particle0).isPhoton = true then forces
      else ((List.range ps.length).drop (i + 1)).foldl (pairBody U ps i) forces)
    (List.replicate ps.length 0)

/-- The per-particle field-force loops of `step` (physics.js lines 790-818):
when enabled, add the field force of each non-photon particle to its slot. -/
noncomputable def addFieldForces (enabled : Bool) (field : Particle → V3)
    (ps : List Particle) (forces : List V3) : List V3 :=
  if enabled = true then
    List.zipWith (fun p f => if p.isPhoton = true then f else f + field p) ps forces
  else forces

/-- The boundary-hit test of `applyBoundaryConditions` for non-photons
(physics.js lines 603-632), evaluated on the pre-clamp particle. -/
def hitBoundaryCond (U : Universe) (p : Particle) : Prop :=
  p.x < 0 ∨ U.size < p.x ∨ p.y < 0 ∨ U.size < p.y ∨
    (U.mode3D = true ∧ (p.z < 0 ∨ U.size < p.z))

noncomputable instance (U : Universe) (p : Particle) :
    Decidable (hitBoundaryCond U p) :=
  Classical.propDecidable _

/-- One axis of the non-photon clamp (physics.js lines 606-632): a
coordinate below `0` goes to `0`, above `size` goes to `size`. -/
noncomputable def clampCoord (size c : ℝ) : ℝ :=
  if c < 0 then 0 else if size < c then size else c

/-- One axis of the photon reflection (physics.js lines 573-599): returns
the new `(coordinate, velocity)` pair; the velocity component is negated
exactly when the wall is crossed. -/
noncomputable def reflectCoord (size c v : ℝ) : ℝ × ℝ :=
  if c < 0 then (-c, -v)
  else if size < c then (2 * size - c, -v)
  else (c, v)

/-- `applyBoundaryConditions` (physics.js lines 569-647): photons reflect
elastically, axis by axis (z only in 3D); other particles are clamped axis
by axis, and a hit on any axis zeroes the velocity and diagnostic
acceleration on every active axis.  Each axis reads its own pre-update
coordinate, so the sequential JavaScript mutations are equivalent to this
simultaneous per-axis form. -/
noncomputable def applyBoundaryConditions (U : Universe) (p : Particle) : Particle :=
  if p.isPhoton = true then
    let rx := reflectCoord U.size p.x p.vx
    let ry := reflectCoord U.size p.y p.vy
    let p2 := { p with x := rx.1, vx := rx.2, y := ry.1, vy := ry.2 }
    if U.mode3D = true then
      let rz := reflectCoord U.size p2.z p2.vz
      { p2 with z := rz.1, vz := rz.2 }
    else p2
  else
    let p3 := { p with
      x := clampCoord U.size p.x
      y := clampCoord U.size p.y
      z := if U.mode3D = true then clampCoord U.size p.z else p.z }
    if hitBoundaryCond U p then
      let p4 := { p3 with vx := 0, vy := 0, accelerationX := 0, accelerationY := 0 }
      if U.mode3D = true then { p4 with vz := 0, accelerationZ := 0 } else p4
    else p3

/-- The Euler integration of `updateParticleMotion` for a processed
non-photon (physics.js lines 702-724), before boundary handling:
acceleration from the force, velocity update, then position update with the
new velocity. -/
noncomputable def integrateMotion (U : Universe) (p : Particle)
    (forceX forceY forceZ : ℝ) : Particle :=
  let ax := forceX / p.mass
  let ay := forceY / p.mass
  let az := if U.mode3D = true then forceZ / p.mass else 0
  let vx := p.vx + ax * U.dt
  let vy := p.vy + ay * U.dt
  let vz := if U.mode3D = true then p.vz + az * U.dt else p.vz
  { p with
    accelerationX := ax
    accelerationY := ay
    accelerationZ := az
    vx := vx
    vy := vy
    vz := vz
    x := p.x + vx * U.dt
    y := p.y + vy * U.dt
    z := if U.mode3D = true then p.z + vz * U.dt else p.z }

/-- `updateParticleMotion` (physics.js lines 675-728).  A photon moves in a
straight line, ages, and reflects.  A non-photon first gets its diagnostic
electrostatic-force fields overwritten with the passed force, is then skipped
if fixed or a static proton, and otherwise integrates and is clamped. -/
noncomputable def updateParticleMotion (U : Universe) (particle : Particle)
    (forceX forceY forceZ : ℝ) : Particle :=
  if particle.isPhoton = true then
    applyBoundaryConditions U
      { particle with
        x := particle.x + particle.vx * U.dt
        y := particle.y + particle.vy * U.dt
        z := if U.mode3D = true then particle.z + particle.vz * U.dt else particle.z
        age := particle.age + 1 }
  else
    let p1 := { particle with
      forceElectroX := forceX
      forceElectroY := forceY
      forceElectroZ := forceZ }
    if p1.fixed = true then p1
    else if U.staticProtons = true ∧ 0 < p1.charge then p1
    else applyBoundaryConditions U (integrateMotion U p1 forceX forceY forceZ)

/-- `step` (physics.js lines 733-824): absorption, then emission, then a
reset of the diagnostic electrostatic-force fields, pairwise force
accumulation, the optional field forces, and finally integration of every
particle with its accumulated force.  (The `console.log` block at the top of
the JavaScript method only prints and does not touch the state.) -/
noncomputable def step (cfg : Config) (rng : ℕ → ℝ) (U : Universe) : Universe :=
  let a := handlePhotonElectronCollisions rng U
  let b := checkAndEmitPhotons cfg a.2.2 a.1
  let U2 := b.1
  let ps := U2.particles.map
    (fun p => { p with forceElectroX := 0, forceElectroY := 0, forceElectroZ := 0 })
  let forces0 := accumulatePairForces U2 ps
  let forces1 := addFieldForces U2.gravityEnabled (calculateGravityForce U2) ps forces0
  let forces2 :=
    addFieldForces U2.groundGravityEnabled (calculateGroundGravityForce U2) ps forces1
  let newPs := (List.zip ps forces2).map
    (fun q => updateParticleMotion U2 q.1 q.2.1 q.2.2.1 q.2.2.2)
  { U2 with particles := newPs }

/-! ### Concrete states used to instantiate and to refute claims -/

/-- The default universe of the app: `new Universe(1.0, 1e-3)`. -/
noncomputable def baseUniverse : Universe := mkUniverse 1 1e-3

/-- A universe with `size = 4`, used to separate `(0.5, 0.5, 0.5)` from
`(size/2, size/2, size/2)`. -/
noncomputable def wideUniverse : Universe := mkUniverse 4 1e-3

/-- A `config` value with photon emission globally enabled. -/
def enabledConfig : Config := ⟨true, true⟩

/-- A fixed proton in the middle of the universe. -/
def fixedProton : Particle := newParticle 0.5 0.5 0 0 1 1 true 0.5 0 false 0

/-- A free proton at `(1, 0.5)`. -/
def offCenterProton : Particle := newParticle 1 0.5 0 0 1 1 false 0.5 0 false 0

/-- An electron at the plane origin. -/
def originElectron : Particle := newParticle 0 0 0 0 (-1) 1 false 0.5 0 false 0

/-- An electron used for a coincident pair. -/
def stillElectron : Particle := newParticle 0.3 0.3 0 0 (-1) 1 false 0.5 0 false 0

/-- An electron moving along x at unit speed. -/
def fastElectron : Particle := newParticle 0.5 0.5 1 0 (-1) 1 false 0.5 0 false 0

/-- An electron with `vx = 1` and a nonzero dormant `vz = 1` in a 2D
universe. -/
def tiltedElectron : Particle := newParticle 0.5 0.5 1 0 (-1) 1 false 0.5 1 false 0

/-- An electron that starts out of bounds at `x = -5`, with a dormant
`vz = 1`. -/
def strayElectron : Particle := newParticle (-5) 0.5 0 0 (-1) 1 false 0.5 1 false 0

/-- A photon fast enough to overshoot the reflection by more than `size` in
one tick (`vx · dt = -3`). -/
def fastPhoton : Particle := newParticle 0.5 0.5 (-300) 0 0 0 false 0.5 0 true 0

/-- An electron at rest whose velocity is the 3-4-5 triangle after scaling,
used to instantiate the emission theorem. -/
def pythagoreanElectron : Particle := newParticle 0.2 0.2 3 4 (-1) 1 false 0.5 0 false 0

/-- A one-particle universe holding `tiltedElectron`. -/
noncomputable def emitUniverse : Universe := { baseUniverse with particles := [tiltedElectron] }

/-- A one-particle universe holding `strayElectron`. -/
noncomputable def clampUniverse : Universe := { baseUniverse with particles := [strayElectron] }

/-- A one-particle universe holding `fastPhoton`. -/
noncomputable def escapeUniverse : Universe := { baseUniverse with particles := [fastPhoton] }

/-- A constant random stream. -/
def constRng (c : ℝ) : ℕ → ℝ := fun _ => c

/-- The particle fields the collision sweep never modifies: positions,
charge, kind, age and carried energy (`absorbEnergy` only rescales the
velocity of the absorbing electron, and only electrons are updated). -/
def shapeEq (p q : Particle) : Prop :=
  p.x = q.x ∧ p.y = q.y ∧ p.z = q.z ∧ p.charge = q.charge ∧
  p.isPhoton = q.isPhoton ∧ p.age = q.age ∧ p.energy = q.energy

/-- Pointwise `shapeEq` between particle lists of the same length. -/
def listShapeEq (ps qs : List Particle) : Prop :=
  ps.length = qs.length ∧ ∀ i, shapeEq (ps.getD i particle0) (qs.getD i particle0)

/-! ### Helper lemmas -/

theorem v3Norm_nonneg (v : V3) : 0 ≤ v3Norm v := Real.sqrt_nonneg _

theorem v3Norm_smul (c : ℝ) (v : V3) : v3Norm (c • v) = |c| * v3Norm v := by
  unfold v3Norm
  simp only [Prod.smul_fst, Prod.smul_snd, smul_eq_mul]
  rw [show c * v.1 * (c * v.1) + c * v.2.1 * (c * v.2.1) + c * v.2.2 * (c * v.2.2)
      = c * c * (v.1 * v.1 + v.2.1 * v.2.1 + v.2.2 * v.2.2) by ring]
  rw [Real.sqrt_mul (mul_self_nonneg c), Real.sqrt_mul_self_eq_abs]

/-! ### C8 — fixed particles and static protons -/

/-- C8 (amended): if a non-photon particle is fixed, or static protons are
enabled and its charge is positive, `updateParticleMotion` leaves its
position, velocity and acceleration diagnostics unchanged — but it does NOT
skip the particle entirely: the diagnostic electrostatic-force fields are
overwritten with the passed force before the skip test (physics.js lines
691-700). -/
theorem updateParticleMotion_skips_fixed_and_static (U : Universe) (p : Particle)
    (forceX forceY forceZ : ℝ) (hph : p.isPhoton = false)
    (hskip : p.fixed = true ∨ (U.staticProtons = true ∧ 0 < p.charge)) :
    updateParticleMotion U p forceX forceY forceZ =
      { p with forceElectroX := forceX, forceElectroY := forceY, forceElectroZ := forceZ } := by
  by_cases hf : p.fixed = true
  · simp [updateParticleMotion, hph, hf]
  · have hsp : U.staticProtons = true ∧ 0 < p.charge := hskip.resolve_left hf
    simp [updateParticleMotion, hph, hf, hsp]

/-- Witness for C8: a concrete fixed proton with the force `(1, 2, 3)`. -/
theorem updateParticleMotion_skips_fixed_and_static_witness :
    updateParticleMotion baseUniverse fixedProton 1 2 3 =
      { fixedProton with forceElectroX := 1, forceElectroY := 2, forceElectroZ := 3 } :=
  updateParticleMotion_skips_fixed_and_static baseUniverse fixedProton 1 2 3
    (by simp [fixedProton, newParticle]) (Or.inl (by simp [fixedProton, newParticle]))

/-- Counterexample for C8 as stated: the claim says the skipped particle's
"diagnostic force … fields are left unchanged by the call", but the call
overwrites `forceElectroX` (initially `0`) with the passed force `7`. -/
theorem updateParticleMotion_diagnostics_cex :
    fixedProton.forceElectroX = 0 ∧
    (updateParticleMotion baseUniverse fixedProton 7 0 0).forceElectroX = 7 ∧
    (7 : ℝ) ≠ 0 := by
  refine ⟨rfl, ?_, by norm_num⟩
  simp [updateParticleMotion, fixedProton, newParticle]

/-! ### C9 — softened electrostatic force and the zero-distance case -/

theorem sqrt_sum_sq_eq_zero (a b c : ℝ) :
    Real.sqrt (a * a + b * b + c * c) = 0 ↔ (a = 0 ∧ b = 0 ∧ c = 0) := by
  have hsum : (0 : ℝ) ≤ a * a + b * b + c * c := by
    nlinarith [mul_self_nonneg a, mul_self_nonneg b, mul_self_nonneg c]
  rw [Real.sqrt_eq_zero hsum]
  constructor
  · intro h
    refine ⟨?_, ?_, ?_⟩ <;>
      nlinarith [mul_self_nonneg a, mul_self_nonneg b, mul_self_nonneg c]
  · rintro ⟨rfl, rfl, rfl⟩
    ring

theorem electroComponentBound (K q1 q2 a b c w : ℝ) (hw : w * w ≤ a * a + b * b + c * c) :
    |(-(K * q1 * q2) / (a * a + b * b + c * c + 0.01)) * (w / Real.sqrt (a * a + b * b + c * c))| ≤
      |K * q1 * q2| / 0.01 := by
  have hsum : (0 : ℝ) ≤ a * a + b * b + c * c := by
    nlinarith [mul_self_nonneg a, mul_self_nonneg b, mul_self_nonneg c]
  have hdnn : (0 : ℝ) ≤ Real.sqrt (a * a + b * b + c * c) := Real.sqrt_nonneg _
  have hwd : |w| ≤ Real.sqrt (a * a + b * b + c * c) := by
    have : |w| = Real.sqrt (w * w) := by
      rw [show w * w = |w| * |w| by rw [← abs_mul, abs_mul_self],
        Real.sqrt_mul_self (abs_nonneg w)]
    rw [this]
    exact Real.sqrt_le_sqrt hw
  have hwdiv : |w / Real.sqrt (a * a + b * b + c * c)| ≤ 1 := by
    rcases eq_or_lt_of_le hdnn with hz | hz
    · rw [← hz, div_zero, abs_zero]
      norm_num
    · rw [abs_div, abs_of_pos hz, div_le_one hz]
      exact hwd
  have hmagle : |(-(K * q1 * q2)) / (a * a + b * b + c * c + 0.01)| ≤
      |K * q1 * q2| / 0.01 := by
    rw [abs_div, abs_neg, abs_of_pos (show (0:ℝ) < a * a + b * b + c * c + 0.01 by
      nlinarith)]
    rw [div_le_div_iff (by nlinarith) (by norm_num)]
    nlinarith [abs_nonneg (K * q1 * q2)]
  calc |(-(K * q1 * q2) / (a * a + b * b + c * c + 0.01)) *
        (w / Real.sqrt (a * a + b * b + c * c))|
      = |(-(K * q1 * q2)) / (a * a + b * b + c * c + 0.01)| *
        |w / Real.sqrt (a * a + b * b + c * c)| := abs_mul _ _
    _ ≤ |K * q1 * q2| / 0.01 * 1 := by
        apply mul_le_mul hmagle hwdiv (abs_nonneg _)
        positivity
    _ = |K * q1 * q2| / 0.01 := mul_one _

/-- C9 (amended): whenever the two particles are separated on some active
axis, `calculateElectrostaticForce` returns finite components and the
`+0.01` softened denominator bounds every component by `|K·q1·q2| / 0.01`;
but at exactly zero active-axis separation the direction normalization
computes `0/0` (IEEE NaN), so the components are NOT finite — captured by
`calculateElectrostaticForceFin` returning `none` exactly there. -/
theorem calculateElectrostaticForceFin_spec (U : Universe) (p1 p2 : Particle) :
    (calculateElectrostaticForceFin U p1 p2 = none ↔
      p1.x = p2.x ∧ p1.y = p2.y ∧ (U.mode3D = true → p1.z = p2.z)) ∧
    (∀ v : V3, calculateElectrostaticForceFin U p1 p2 = some v →
      v = calculateElectrostaticForce U p1 p2 ∧
      |v.1| ≤ |U.electrostaticCoefficient * p1.charge * p2.charge| / 0.01 ∧
      |v.2.1| ≤ |U.electrostaticCoefficient * p1.charge * p2.charge| / 0.01 ∧
      |v.2.2| ≤ |U.electrostaticCoefficient * p1.charge * p2.charge| / 0.01) := by
  by_cases hm : U.mode3D = true
  · constructor
    · simp only [calculateElectrostaticForceFin, hm, if_true]
      split_ifs with h
      · simp only [eq_self_iff_true, true_iff]
        obtain ⟨h1, h2, h3⟩ := (sqrt_sum_sq_eq_zero _ _ _).mp h
        exact ⟨(sub_eq_zero.mp h1).symm, (sub_eq_zero.mp h2).symm,
          fun _ => (sub_eq_zero.mp h3).symm⟩
      · simp only [reduceCtorEq, false_iff]
        rintro ⟨h1, h2, h3⟩
        exact h ((sqrt_sum_sq_eq_zero _ _ _).mpr
          ⟨by rw [h1]; ring, by rw [h2]; ring, by rw [h3 (by trivial)]; ring⟩)
    · intro v hv
      simp only [calculateElectrostaticForceFin, hm, if_true] at hv
      split_ifs at hv with h
      have hveq : v = calculateElectrostaticForce U p1 p2 := (Option.some.inj hv).symm
      subst hveq
      refine ⟨rfl, ?_, ?_, ?_⟩ <;>
        simp only [calculateElectrostaticForce, hm, if_true]
      · exact electroComponentBound _ _ _ _ _ _ _
          (by nlinarith [mul_self_nonneg (p2.y - p1.y), mul_self_nonneg (p2.z - p1.z)])
      · exact electroComponentBound _ _ _ _ _ _ _
          (by nlinarith [mul_self_nonneg (p2.x - p1.x), mul_self_nonneg (p2.z - p1.z)])
      · exact electroComponentBound _ _ _ _ _ _ _
          (by nlinarith [mul_self_nonneg (p2.x - p1.x), mul_self_nonneg (p2.y - p1.y)])
  · rw [Bool.not_eq_true] at hm
    constructor
    · simp only [calculateElectrostaticForceFin, hm, Bool.false_eq_true, if_false]
      split_ifs with h
      · simp only [eq_self_iff_true, true_iff]
        obtain ⟨h1, h2, _⟩ := (sqrt_sum_sq_eq_zero _ _ _).mp h
        exact ⟨(sub_eq_zero.mp h1).symm, (sub_eq_zero.mp h2).symm,
          fun hm3 => absurd hm3 (by simp)⟩
      · simp only [reduceCtorEq, false_iff]
        rintro ⟨h1, h2, _⟩
        exact h ((sqrt_sum_sq_eq_zero _ _ _).mpr
          ⟨by rw [h1]; ring, by rw [h2]; ring, by ring⟩)
    · intro v hv
      simp only [calculateElectrostaticForceFin, hm, Bool.false_eq_true, if_false] at hv
      split_ifs at hv with h
      have hveq : v = calculateElectrostaticForce U p1 p2 := (Option.some.inj hv).symm
      subst hveq
      refine ⟨rfl, ?_, ?_, ?_⟩ <;>
        simp only [calculateElectrostaticForce, hm, Bool.false_eq_true, if_false]
      · exact electroComponentBound _ _ _ _ _ _ _
          (by nlinarith [mul_self_nonneg (p2.y - p1.y)])
      · exact electroComponentBound _ _ _ _ _ _ _
          (by nlinarith [mul_self_nonneg (p2.x - p1.x)])
      · rw [abs_zero]
        positivity

/-- Counterexample for C9 as stated: for a pair at identical positions the
computation is `0/0` (NaN) in each direction component — the force is not
finite, modelled by `none`. -/
theorem calculateElectrostaticForceFin_zero_distance_cex :
    calculateElectrostaticForceFin baseUniverse stillElectron stillElectron = none := by
  simp [calculateElectrostaticForceFin, stillElectron, newParticle, baseUniverse, mkUniverse]

/-! ### C10 — the speed passed to managePhotonEmission is positive -/

/-- If `shouldEmitPhoton` answered `true`, the full-velocity speed it
measured reached the threshold. -/
theorem shouldEmitPhoton_speed (U : Universe) (r : ℝ) (p : Particle)
    (h : shouldEmitPhoton U r p = true) :
    U.photonEmissionSpeedThreshold ≤ fullSpeed p := by
  unfold shouldEmitPhoton at h
  unfold fullSpeed
  by_cases hlt : Real.sqrt (p.vx * p.vx + p.vy * p.vy + p.vz * p.vz) <
      U.photonEmissionSpeedThreshold
  · rw [if_pos hlt] at h; exact absurd h (by simp)
  · exact le_of_not_lt hlt

/-- C10: assuming every electron has `vz = 0` whenever 3D mode is off, an
electron that passes `shouldEmitPhoton` has `emittedSpeedArg` (the speed
value `checkAndEmitPhotons` passes to `managePhotonEmission`) at least the
threshold `1e-3`, hence strictly positive and nonzero — so the divisions by
`speed` in `managePhotonEmission` never divide by zero.  The precondition is
needed because `shouldEmitPhoton` measures the speed including `vz`
unconditionally, while `emittedSpeedArg` drops `vz` in 2D mode. -/
theorem emittedSpeedArg_positive (U : Universe) (r : ℝ) (p : Particle)
    (hthr : U.photonEmissionSpeedThreshold = 1e-3)
    (hvz : U.mode3D = false → p.vz = 0)
    (hemit : shouldEmitPhoton U r p = true) :
    U.photonEmissionSpeedThreshold ≤ emittedSpeedArg U p ∧
      0 < emittedSpeedArg U p ∧ emittedSpeedArg U p ≠ 0 := by
  have hfull := shouldEmitPhoton_speed U r p hemit
  have harg : emittedSpeedArg U p = fullSpeed p := by
    unfold emittedSpeedArg fullSpeed
    by_cases hm : U.mode3D = true
    · rw [if_pos hm]
    · rw [if_neg hm, hvz (by simpa using hm)]
  rw [harg]
  refine ⟨hfull, ?_, ?_⟩
  · calc (0 : ℝ) < 1e-3 := by norm_num
      _ = U.photonEmissionSpeedThreshold := hthr.symm
      _ ≤ fullSpeed p := hfull
  · intro h0
    rw [h0, hthr] at hfull
    norm_num at hfull

/-- Witness for C10: the default universe (threshold `1e-3`), an electron
moving along x at unit speed with `vz = 0`, and the draw `r = 0`. -/
theorem emittedSpeedArg_positive_witness :
    baseUniverse.photonEmissionSpeedThreshold ≤ emittedSpeedArg baseUniverse fastElectron ∧
      0 < emittedSpeedArg baseUniverse fastElectron ∧
      emittedSpeedArg baseUniverse fastElectron ≠ 0 :=
  emittedSpeedArg_positive baseUniverse 0 fastElectron rfl
    (fun _ => rfl)
    (by
      rw [shouldEmitPhoton]
      rw [show fastElectron.vx * fastElectron.vx + fastElectron.vy * fastElectron.vy +
        fastElectron.vz * fastElectron.vz = 1 by norm_num [fastElectron, newParticle]]
      rw [Real.sqrt_one]
      rw [if_neg (by norm_num [baseUniverse, mkUniverse])]
      rw [decide_eq_true_eq]
      norm_num [baseUniverse, mkUniverse])

/-! ### C7 — gravity points at the constant center (0.5, 0.5, 0.5) -/

/-- C7 (amended): `calculateGravityForce` returns the zero vector when the
particle's distance to the constant point `(0.5, 0.5, 0.5)` (z ignored in 2D
mode) is at most `1e-6`; otherwise, for nonnegative mass and gravity
coefficient, it returns a force of magnitude `mass · K_gravity · 1e-6`
that is a nonnegative multiple of the displacement toward that constant
point.  The center is NOT `(size/2, size/2, size/2)`: the coordinates `0.5`
are hard-coded, so the two agree only when `size = 1`. -/
theorem calculateGravityForce_spec (U : Universe) (p : Particle)
    (hman : 0 ≤ p.mass) (hK : 0 ≤ U.gravityCoefficient) :
    (gravityDist U p ≤ 1e-6 → calculateGravityForce U p = (0, 0, 0)) ∧
    (1e-6 < gravityDist U p →
      v3Norm (calculateGravityForce U p) = p.mass * U.gravityCoefficient * 1e-6 ∧
      ∃ c : ℝ, 0 ≤ c ∧ calculateGravityForce U p = c • gravityDelta U p) := by
  have hdist : gravityDist U p = Real.sqrt ((0.5 - p.x) * (0.5 - p.x) +
      (0.5 - p.y) * (0.5 - p.y) +
      (if U.mode3D = true then 0.5 - p.z else 0) *
        (if U.mode3D = true then 0.5 - p.z else 0)) := rfl
  constructor
  · intro hle
    rw [hdist] at hle
    simp only [calculateGravityForce]
    rw [if_pos hle]
  · intro hgt
    rw [hdist] at hgt
    have hd0 : (0 : ℝ) < Real.sqrt ((0.5 - p.x) * (0.5 - p.x) +
        (0.5 - p.y) * (0.5 - p.y) +
        (if U.mode3D = true then 0.5 - p.z else 0) *
          (if U.mode3D = true then 0.5 - p.z else 0)) := by
      calc (0 : ℝ) < 1e-6 := by norm_num
        _ < _ := hgt
    have hform : calculateGravityForce U p =
        (p.mass * U.gravityCoefficient * 1e-6 / gravityDist U p) • gravityDelta U p := by
      simp only [calculateGravityForce]
      rw [if_neg (not_le.mpr hgt)]
      rw [hdist]
      unfold gravityDelta
      by_cases hm : U.mode3D = true
      · simp only [hm, if_true, Prod.smul_mk, smul_eq_mul, Prod.mk.injEq]
        refine ⟨by ring, by ring, by ring⟩
      · simp only [hm, Bool.false_eq_true, if_false, Prod.smul_mk, smul_eq_mul,
          Prod.mk.injEq]
        refine ⟨by ring, by ring, by ring⟩
    have hcnn : 0 ≤ p.mass * U.gravityCoefficient * 1e-6 / gravityDist U p := by
      apply div_nonneg
      · positivity
      · rw [hdist]
        exact le_of_lt hd0
    constructor
    · rw [hform, v3Norm_smul]
      rw [abs_of_nonneg hcnn]
      have hnd : v3Norm (gravityDelta U p) = gravityDist U p := rfl
      rw [hnd]
      rw [div_mul_cancel₀]
      rw [hdist]
      exact ne_of_gt hd0
    · exact ⟨_, hcnn, hform⟩

/-- Witness for C7: the default 2D universe and an electron at the plane
origin, mass `1`. -/
theorem calculateGravityForce_spec_witness :
    (gravityDist baseUniverse originElectron ≤ 1e-6 →
      calculateGravityForce baseUniverse originElectron = (0, 0, 0)) ∧
    (1e-6 < gravityDist baseUniverse originElectron →
      v3Norm (calculateGravityForce baseUniverse originElectron) =
        originElectron.mass * baseUniverse.gravityCoefficient * 1e-6 ∧
      ∃ c : ℝ, 0 ≤ c ∧ calculateGravityForce baseUniverse originElectron =
        c • gravityDelta baseUniverse originElectron) :=
  calculateGravityForce_spec baseUniverse originElectron
    (by norm_num [originElectron, newParticle])
    (by norm_num [baseUniverse, mkUniverse])

/-- Counterexample for C7 as stated: in a universe of `size = 4`, for a unit
mass proton at `(1, 0.5)`, the force x-component is strictly negative (the
code pulls toward `x = 0.5`), while `size/2 - x = 1 > 0`; a force "directed
toward `(size/2, size/2, size/2)`" would need a nonnegative x-component
there, so the claimed direction is wrong for `size ≠ 1`. -/
theorem calculateGravityForce_center_cex :
    (calculateGravityForce wideUniverse offCenterProton).1 < 0 ∧
    0 < wideUniverse.size / 2 - offCenterProton.x ∧
    ∀ c : ℝ, 0 ≤ c →
      (calculateGravityForce wideUniverse offCenterProton).1 ≠
        c * (wideUniverse.size / 2 - offCenterProton.x) := by
  have hx : (calculateGravityForce wideUniverse offCenterProton).1 = -(1e-5) := by
    simp only [calculateGravityForce, wideUniverse, mkUniverse, offCenterProton,
      newParticle, Bool.false_eq_true, if_false]
    norm_num
    rw [show Real.sqrt 4 = 2 by
      rw [show (4 : ℝ) = 2 ^ 2 by norm_num, Real.sqrt_sq (by norm_num : (0:ℝ) ≤ 2)]]
    rw [if_neg (by norm_num)]
    norm_num
  refine ⟨by rw [hx]; norm_num, by norm_num [wideUniverse, mkUniverse,
    offCenterProton, newParticle], ?_⟩
  intro c hc hceq
  rw [hx] at hceq
  have : wideUniverse.size / 2 - offCenterProton.x = 1 := by
    norm_num [wideUniverse, mkUniverse, offCenterProton, newParticle]
  rw [this, mul_one] at hceq
  linarith [hc, hceq.symm.le]

/-! ### C2 / C3 — photon emission -/

theorem sqrt_scaled_sum (s a b c : ℝ) (hs : 0 ≤ s) :
    Real.sqrt (a * s * (a * s) + b * s * (b * s) + c * s * (c * s)) =
      s * Real.sqrt (a * a + b * b + c * c) := by
  rw [show a * s * (a * s) + b * s * (b * s) + c * s * (c * s)
      = s * s * (a * a + b * b + c * c) by ring]
  rw [Real.sqrt_mul (mul_self_nonneg s), Real.sqrt_mul_self hs]

/-- The electron half of `managePhotonEmission` is computed before the
`config.photonEmission.enabled` check and does not depend on it. -/
theorem managePhotonEmission_fst (cfg : Config) (U : Universe) (particle : Particle)
    (speed vx vy vz r : ℝ) :
    (managePhotonEmission cfg U particle speed vx vy vz r).1 =
      { particle with
        vx := particle.vx / (1 / Real.sqrt (1 - r))
        vy := particle.vy / (1 / Real.sqrt (1 - r))
        vz := if U.mode3D = true then particle.vz / (1 / Real.sqrt (1 - r))
          else particle.vz
        hasEmittedPhoton := true } := by
  simp only [managePhotonEmission]
  by_cases h : cfg.photonEmissionEnabled = true
  · rw [if_pos h]
  · rw [if_neg h]

/-- With emission disabled in the configuration, `managePhotonEmission`
returns no photon. -/
theorem managePhotonEmission_snd_disabled (cfg : Config)
    (hcfg : cfg.photonEmissionEnabled = false) (U : Universe) (particle : Particle)
    (speed vx vy vz r : ℝ) :
    (managePhotonEmission cfg U particle speed vx vy vz r).2 = none := by
  simp only [managePhotonEmission]
  rw [if_neg (by simp [hcfg])]

/-- With emission enabled, `managePhotonEmission` returns the photon record
built by the `Particle` constructor. -/
theorem managePhotonEmission_enabled (cfg : Config)
    (hcfg : cfg.photonEmissionEnabled = true) (U : Universe) (particle : Particle)
    (speed vx vy vz r : ℝ) :
    managePhotonEmission cfg U particle speed vx vy vz r =
      ({ particle with
          vx := particle.vx / (1 / Real.sqrt (1 - r))
          vy := particle.vy / (1 / Real.sqrt (1 - r))
          vz := if U.mode3D = true then particle.vz / (1 / Real.sqrt (1 - r))
            else particle.vz
          hasEmittedPhoton := true },
        some (newParticle particle.x particle.y
          (vx / speed * (speed / (1 / Real.sqrt (1 - r))))
          (vy / speed * (speed / (1 / Real.sqrt (1 - r)))) 0 0 false particle.z
          (if U.mode3D = true then vz / speed * (speed / (1 / Real.sqrt (1 - r))) else 0)
          true (r * (0.5 * U.electronMass * speed * speed)))) := by
  simp only [managePhotonEmission]
  rw [if_pos hcfg]

/-- C2 (amended): with emission enabled and ratio `0.9`, for a call as
`checkAndEmitPhotons` makes it (the speed argument is the norm of the passed
velocity, the passed components are the electron's with `vz` dropped in 2D
mode) and under the system precondition that a 2D electron has `vz = 0`:
the photon carries `0.9` of the initial kinetic energy `½·m_e·speed²`; the
electron's velocity components on the active axes are scaled by `√(1−0.9)`
(in 2D the dormant `vz` is untouched by the code, which is why the `vz = 0`
precondition is needed for the claim's "each component" reading); its
`hasEmittedPhoton` flag is set; the photon starts at the electron's position
with the electron's post-reduction velocity, speed `√(1−0.9)·speed`, charge
0, mass 0, age 0. -/
theorem managePhotonEmission_spec (cfg : Config) (U : Universe) (particle : Particle)
    (speed vx vy vz : ℝ)
    (hen : cfg.photonEmissionEnabled = true)
    (hsp : speed = Real.sqrt (vx * vx + vy * vy + vz * vz))
    (hpos : 0 < speed)
    (hvx : vx = particle.vx) (hvy : vy = particle.vy)
    (hvz : vz = (if U.mode3D = true then particle.vz else 0))
    (hz2 : U.mode3D = false → particle.vz = 0) :
    ∃ e ph, managePhotonEmission cfg U particle speed vx vy vz 0.9 = (e, some ph) ∧
      ph.energy = 0.9 * (0.5 * U.electronMass * speed * speed) ∧
      e.vx = particle.vx * Real.sqrt (1 - 0.9) ∧
      e.vy = particle.vy * Real.sqrt (1 - 0.9) ∧
      e.vz = particle.vz * Real.sqrt (1 - 0.9) ∧
      e.hasEmittedPhoton = true ∧
      e.x = particle.x ∧ e.y = particle.y ∧ e.z = particle.z ∧
      ph.x = particle.x ∧ ph.y = particle.y ∧ ph.z = particle.z ∧
      ph.vx = e.vx ∧ ph.vy = e.vy ∧ ph.vz = e.vz ∧
      Real.sqrt (ph.vx * ph.vx + ph.vy * ph.vy + ph.vz * ph.vz) =
        Real.sqrt (1 - 0.9) * speed ∧
      ph.charge = 0 ∧ ph.mass = 0 ∧ ph.age = 0 ∧ ph.isPhoton = true ∧
      ph.fixed = false := by
  have hspos : (0 : ℝ) < Real.sqrt (1 - 0.9) := Real.sqrt_pos.mpr (by norm_num)
  have hsnn : (0 : ℝ) ≤ Real.sqrt (1 - 0.9) := le_of_lt hspos
  have hspeedne : speed ≠ 0 := ne_of_gt hpos
  have hdiv : ∀ a : ℝ, a / (1 / Real.sqrt (1 - 0.9)) = a * Real.sqrt (1 - 0.9) := by
    intro a
    rw [div_div_eq_mul_div, div_one]
  have hphv : ∀ a : ℝ, a / speed * (speed / (1 / Real.sqrt (1 - 0.9)))
      = a * Real.sqrt (1 - 0.9) := by
    intro a
    rw [hdiv speed]
    calc a / speed * (speed * Real.sqrt (1 - 0.9))
        = a / speed * speed * Real.sqrt (1 - 0.9) := by ring
      _ = a * Real.sqrt (1 - 0.9) := by rw [div_mul_cancel₀ _ hspeedne]
  rw [managePhotonEmission_enabled cfg hen U particle speed vx vy vz 0.9]
  refine ⟨_, _, rfl, rfl, hdiv _, hdiv _, ?_, rfl, rfl, rfl, rfl, rfl, rfl, rfl,
    ?_, ?_, ?_, ?_, rfl, rfl, rfl, rfl, rfl⟩
  · show (if U.mode3D = true then particle.vz / (1 / Real.sqrt (1 - 0.9))
        else particle.vz) = particle.vz * Real.sqrt (1 - 0.9)
    by_cases hm : U.mode3D = true
    · rw [if_pos hm]
      exact hdiv _
    · rw [if_neg hm, hz2 (by simpa using hm)]
      norm_num
  · show vx / speed * (speed / (1 / Real.sqrt (1 - 0.9)))
        = particle.vx / (1 / Real.sqrt (1 - 0.9))
    rw [hphv vx, hdiv, hvx]
  · show vy / speed * (speed / (1 / Real.sqrt (1 - 0.9)))
        = particle.vy / (1 / Real.sqrt (1 - 0.9))
    rw [hphv vy, hdiv, hvy]
  · show (if U.mode3D = true then vz / speed * (speed / (1 / Real.sqrt (1 - 0.9))) else 0)
        = (if U.mode3D = true then particle.vz / (1 / Real.sqrt (1 - 0.9)) else particle.vz)
    by_cases hm : U.mode3D = true
    · rw [if_pos hm, if_pos hm, hphv vz, hdiv]
      rw [hvz, if_pos hm]
    · rw [if_neg hm, if_neg hm, hz2 (by simpa using hm)]
  · show Real.sqrt
        (vx / speed * (speed / (1 / Real.sqrt (1 - 0.9))) *
          (vx / speed * (speed / (1 / Real.sqrt (1 - 0.9)))) +
         vy / speed * (speed / (1 / Real.sqrt (1 - 0.9))) *
          (vy / speed * (speed / (1 / Real.sqrt (1 - 0.9)))) +
         (if U.mode3D = true then vz / speed * (speed / (1 / Real.sqrt (1 - 0.9))) else 0) *
          (if U.mode3D = true then vz / speed * (speed / (1 / Real.sqrt (1 - 0.9))) else 0))
        = Real.sqrt (1 - 0.9) * speed
    rw [hphv vx, hphv vy]
    by_cases hm : U.mode3D = true
    · rw [if_pos hm, hphv vz]
      rw [sqrt_scaled_sum (Real.sqrt (1 - 0.9)) vx vy vz hsnn]
      rw [← hsp]
    · rw [if_neg hm]
      have hvz0 : vz = 0 := by rw [hvz, if_neg hm]
      rw [show (0 : ℝ) * 0 = 0 * Real.sqrt (1 - 0.9) * (0 * Real.sqrt (1 - 0.9)) by ring]
      rw [sqrt_scaled_sum (Real.sqrt (1 - 0.9)) vx vy 0 hsnn]
      rw [hvz0] at hsp
      rw [← hsp]

/-- Witness for C2: the default 2D universe, emission enabled, an electron
with velocity `(3, 4, 0)` and the speed argument `5`. -/
theorem managePhotonEmission_spec_witness :
    ∃ e ph, managePhotonEmission enabledConfig baseUniverse pythagoreanElectron 5 3 4 0 0.9
        = (e, some ph) ∧
      ph.energy = 0.9 * (0.5 * baseUniverse.electronMass * 5 * 5) ∧
      e.vx = pythagoreanElectron.vx * Real.sqrt (1 - 0.9) ∧
      e.vy = pythagoreanElectron.vy * Real.sqrt (1 - 0.9) ∧
      e.vz = pythagoreanElectron.vz * Real.sqrt (1 - 0.9) ∧
      e.hasEmittedPhoton = true ∧
      e.x = pythagoreanElectron.x ∧ e.y = pythagoreanElectron.y ∧
      e.z = pythagoreanElectron.z ∧
      ph.x = pythagoreanElectron.x ∧ ph.y = pythagoreanElectron.y ∧
      ph.z = pythagoreanElectron.z ∧
      ph.vx = e.vx ∧ ph.vy = e.vy ∧ ph.vz = e.vz ∧
      Real.sqrt (ph.vx * ph.vx + ph.vy * ph.vy + ph.vz * ph.vz) =
        Real.sqrt (1 - 0.9) * 5 ∧
      ph.charge = 0 ∧ ph.mass = 0 ∧ ph.age = 0 ∧ ph.isPhoton = true ∧
      ph.fixed = false :=
  managePhotonEmission_spec enabledConfig baseUniverse pythagoreanElectron 5 3 4 0
    rfl
    (by rw [show (3 : ℝ) * 3 + 4 * 4 + 0 * 0 = 5 ^ 2 by norm_num,
      Real.sqrt_sq (by norm_num : (0:ℝ) ≤ 5)])
    (by norm_num)
    rfl rfl rfl (fun _ => rfl)

/-- Counterexample for C2 as stated: in a 2D universe, an emitting electron
with dormant `vz = 1` keeps `vz = 1` — the code only scales `vx` and `vy`
(and `vz` in 3D mode), so NOT "each of the emitting electron's velocity
components is scaled by sqrt(1 - 0.9)". -/
theorem managePhotonEmission_vz_cex :
    ((managePhotonEmission enabledConfig baseUniverse tiltedElectron 1 1 0 0 0.9).1).vz
      = 1 ∧
    (1 : ℝ) ≠ Real.sqrt (1 - 0.9) * 1 := by
  constructor
  · rfl
  · rw [mul_one]
    intro h
    have h2 := Real.sq_sqrt (show (0:ℝ) ≤ 1 - 0.9 by norm_num)
    rw [← h] at h2
    norm_num at h2

/-- The processed particle list of the emission sweep has the same length as
its input: the sweep never inserts or deletes in place. -/
theorem emitSweep_fst_length (cfg : Config) (U : Universe) :
    ∀ (ps : List Particle) (rng : ℕ → ℝ), (emitSweep cfg U ps rng).1.length = ps.length := by
  intro ps
  induction ps with
  | nil => intro rng; rfl
  | cons p rest ih =>
    intro rng
    simp only [emitSweep]
    split_ifs with h1 h2 h3 <;>
      simp [ih]

/-- With emission disabled, the sweep buffers no photons at all. -/
theorem emitSweep_disabled (cfg : Config) (hcfg : cfg.photonEmissionEnabled = false)
    (U : Universe) :
    ∀ (ps : List Particle) (rng : ℕ → ℝ), (emitSweep cfg U ps rng).2.1 = [] := by
  intro ps
  induction ps with
  | nil => intro rng; rfl
  | cons p rest ih =>
    intro rng
    simp only [emitSweep]
    split_ifs with h1 h2 h3 <;>
      simp [ih, managePhotonEmission_snd_disabled cfg hcfg]

/-- With emission disabled, `checkAndEmitPhotons` preserves the particle
count. -/
theorem checkAndEmitPhotons_disabled_length (cfg : Config)
    (hcfg : cfg.photonEmissionEnabled = false) (rng : ℕ → ℝ) (U : Universe) :
    (checkAndEmitPhotons cfg rng U).1.particles.length = U.particles.length := by
  simp only [checkAndEmitPhotons]
  rw [List.length_append, emitSweep_disabled cfg hcfg U _ _, emitSweep_fst_length]
  simp

theorem foldl_length_inv {α : Type} (f : List V3 → α → List V3)
    (hf : ∀ st a, (f st a).length = st.length) :
    ∀ (l : List α) (st : List V3), (l.foldl f st).length = st.length := by
  intro l
  induction l with
  | nil => intro st; rfl
  | cons a t ih =>
    intro st
    rw [List.foldl_cons, ih, hf]

theorem pairBody_length (U : Universe) (ps : List Particle) (i : ℕ)
    (forces : List V3) (j : ℕ) : (pairBody U ps i forces j).length = forces.length := by
  unfold pairBody
  split_ifs <;> simp

/-- The pairwise accumulation returns one force slot per particle. -/
theorem accumulatePairForces_length (U : Universe) (ps : List Particle) :
    (accumulatePairForces U ps).length = ps.length := by
  unfold accumulatePairForces
  rw [foldl_length_inv]
  · exact List.length_replicate _ _
  · intro st a
    split_ifs
    · rfl
    · rw [foldl_length_inv]
      exact fun st' a' => pairBody_length U ps a st' a'

theorem addFieldForces_length (enabled : Bool) (field : Particle → V3)
    (ps : List Particle) (forces : List V3) (h : forces.length = ps.length) :
    (addFieldForces enabled field ps forces).length = ps.length := by
  unfold addFieldForces
  split_ifs
  · simp [h]
  · exact h

theorem absorbScan_fst_length (U : Universe) (photon : Particle) :
    ∀ (idxs : List ℕ) (ps : List Particle) (rng : ℕ → ℝ),
      (absorbScan U photon idxs ps rng).1.length = ps.length := by
  intro idxs
  induction idxs with
  | nil => intro ps rng; rfl
  | cons j rest ih =>
    intro ps rng
    simp only [absorbScan]
    split_ifs
    · simp
    · exact ih ps rng

theorem absorbSweep_fst_length (U : Universe) :
    ∀ (idxs : List ℕ) (st : List Particle × List ℕ × (ℕ → ℝ)),
      (absorbSweep U idxs st).1.length = st.1.length := by
  intro idxs
  induction idxs with
  | nil => intro st; rfl
  | cons i rest ih =>
    intro st
    obtain ⟨ps, rem, rng⟩ := st
    simp only [absorbSweep]
    by_cases h : (ps.getD i particle0).isPhoton = true
    · rw [if_pos h, ih]
      exact absorbScan_fst_length U _ _ _ _
    · rw [if_neg h, ih]

theorem eraseFold_length_le :
    ∀ (l : List ℕ) (ps : List Particle),
      (l.foldl (fun acc i => acc.eraseIdx i) ps).length ≤ ps.length := by
  intro l
  induction l with
  | nil => intro ps; exact le_refl _
  | cons i rest ih =>
    intro ps
    rw [List.foldl_cons]
    calc (rest.foldl (fun acc i => acc.eraseIdx i) (ps.eraseIdx i)).length
        ≤ (ps.eraseIdx i).length := ih _
      _ ≤ ps.length := by
          rw [List.length_eraseIdx]
          split_ifs <;> omega

/-- The absorption phase never increases the particle count. -/
theorem handlePhotonElectronCollisions_length_le (rng : ℕ → ℝ) (U : Universe) :
    (handlePhotonElectronCollisions rng U).1.particles.length ≤ U.particles.length := by
  simp only [handlePhotonElectronCollisions]
  calc ((absorbSweep U (List.range U.particles.length)
          (U.particles, [], rng)).2.1.reverse.foldl (fun l i => l.eraseIdx i)
          (absorbSweep U (List.range U.particles.length) (U.particles, [], rng)).1).length
      ≤ (absorbSweep U (List.range U.particles.length) (U.particles, [], rng)).1.length :=
        eraseFold_length_le _ _
    _ = U.particles.length := absorbSweep_fst_length U _ _

/-- With emission disabled, one `step` only ever removes particles. -/
theorem step_length_le (cfg : Config) (hcfg : cfg.photonEmissionEnabled = false)
    (rng : ℕ → ℝ) (U : Universe) :
    (step cfg rng U).particles.length ≤ U.particles.length := by
  simp only [step]
  rw [List.length_map, List.length_zip]
  apply le_trans (min_le_left _ _)
  rw [List.length_map]
  rw [checkAndEmitPhotons_disabled_length cfg hcfg]
  exact handlePhotonElectronCollisions_length_le rng U

/-- C3 (amended): with global photon emission disabled, `checkAndEmitPhotons`
adds no particle and `step` never increases the particle count (particles can
still be removed by absorption); the electron-side bookkeeping of
`managePhotonEmission` is the same as with emission enabled: the flag is set
and the velocity components on the ACTIVE axes are scaled by `√(1−0.9)` —
in 2D mode the dormant `vz` is left unchanged (the claim's "each velocity
component" only holds for the active axes). -/
theorem emission_disabled_spec (cfg : Config) (hcfg : cfg.photonEmissionEnabled = false) :
    (∀ (rng : ℕ → ℝ) (U : Universe),
      (checkAndEmitPhotons cfg rng U).1.particles.length = U.particles.length) ∧
    (∀ (rng : ℕ → ℝ) (U : Universe),
      (step cfg rng U).particles.length ≤ U.particles.length) ∧
    (∀ (cfg' : Config) (U : Universe) (particle : Particle) (speed vx vy vz r : ℝ),
      (managePhotonEmission cfg U particle speed vx vy vz r).1 =
        (managePhotonEmission cfg' U particle speed vx vy vz r).1) ∧
    (∀ (U : Universe) (particle : Particle) (speed vx vy vz : ℝ),
      ((managePhotonEmission cfg U particle speed vx vy vz 0.9).1).hasEmittedPhoton
          = true ∧
      ((managePhotonEmission cfg U particle speed vx vy vz 0.9).1).vx
          = particle.vx * Real.sqrt (1 - 0.9) ∧
      ((managePhotonEmission cfg U particle speed vx vy vz 0.9).1).vy
          = particle.vy * Real.sqrt (1 - 0.9) ∧
      (U.mode3D = true →
        ((managePhotonEmission cfg U particle speed vx vy vz 0.9).1).vz
          = particle.vz * Real.sqrt (1 - 0.9)) ∧
      (U.mode3D = false →
        ((managePhotonEmission cfg U particle speed vx vy vz 0.9).1).vz
          = particle.vz)) := by
  have hdiv : ∀ a : ℝ, a / (1 / Real.sqrt (1 - 0.9)) = a * Real.sqrt (1 - 0.9) := by
    intro a
    rw [div_div_eq_mul_div, div_one]
  refine ⟨fun rng U => checkAndEmitPhotons_disabled_length cfg hcfg rng U,
    fun rng U => step_length_le cfg hcfg rng U,
    fun cfg' U particle speed vx vy vz r => by
      rw [managePhotonEmission_fst, managePhotonEmission_fst],
    fun U particle speed vx vy vz => ?_⟩
  rw [managePhotonEmission_fst]
  refine ⟨rfl, hdiv _, hdiv _, ?_, ?_⟩
  · intro hm
    show (if U.mode3D = true then particle.vz / (1 / Real.sqrt (1 - 0.9))
        else particle.vz) = particle.vz * Real.sqrt (1 - 0.9)
    rw [if_pos hm]
    exact hdiv _
  · intro hm
    show (if U.mode3D = true then particle.vz / (1 / Real.sqrt (1 - 0.9))
        else particle.vz) = particle.vz
    rw [if_neg (by simp [hm])]

/-- Witness for C3: the shipped configuration, in which `enabled` is unset
(falsy). -/
theorem emission_disabled_spec_witness :
    (∀ (rng : ℕ → ℝ) (U : Universe),
      (checkAndEmitPhotons srcConfig rng U).1.particles.length = U.particles.length) ∧
    (∀ (rng : ℕ → ℝ) (U : Universe),
      (step srcConfig rng U).particles.length ≤ U.particles.length) ∧
    (∀ (cfg' : Config) (U : Universe) (particle : Particle) (speed vx vy vz r : ℝ),
      (managePhotonEmission srcConfig U particle speed vx vy vz r).1 =
        (managePhotonEmission cfg' U particle speed vx vy vz r).1) ∧
    (∀ (U : Universe) (particle : Particle) (speed vx vy vz : ℝ),
      ((managePhotonEmission srcConfig U particle speed vx vy vz 0.9).1).hasEmittedPhoton
          = true ∧
      ((managePhotonEmission srcConfig U particle speed vx vy vz 0.9).1).vx
          = particle.vx * Real.sqrt (1 - 0.9) ∧
      ((managePhotonEmission srcConfig U particle speed vx vy vz 0.9).1).vy
          = particle.vy * Real.sqrt (1 - 0.9) ∧
      (U.mode3D = true →
        ((managePhotonEmission srcConfig U particle speed vx vy vz 0.9).1).vz
          = particle.vz * Real.sqrt (1 - 0.9)) ∧
      (U.mode3D = false →
        ((managePhotonEmission srcConfig U particle speed vx vy vz 0.9).1).vz
          = particle.vz)) :=
  emission_disabled_spec srcConfig rfl

/-- Counterexample for C3 as stated: with emission disabled (`srcConfig`), a
2D electron with `vx = 1, vz = 1` that passes the probabilistic test gets
`vx` scaled to `√(1−0.9)` but keeps `vz = 1` — NOT "each velocity component
scaled by sqrt(1 - 0.9)" (the particle count is indeed unchanged). -/
theorem checkAndEmitPhotons_vz_cex :
    ((checkAndEmitPhotons srcConfig (constRng 0) emitUniverse).1.particles.getD 0
        particle0).vz = 1 ∧
    ((checkAndEmitPhotons srcConfig (constRng 0) emitUniverse).1.particles.getD 0
        particle0).vx = Real.sqrt (1 - 0.9) ∧
    (checkAndEmitPhotons srcConfig (constRng 0) emitUniverse).1.particles.length = 1 ∧
    (1 : ℝ) ≠ Real.sqrt (1 - 0.9) * 1 := by
  have h1 : ¬(0 ≤ tiltedElectron.charge ∨ tiltedElectron.isPhoton = true) := by
    norm_num [tiltedElectron, newParticle]
  have h2 : ¬(srcConfig.onePhotonPerElectron = true ∧
      tiltedElectron.hasEmittedPhoton = true) := by
    norm_num [srcConfig, tiltedElectron, newParticle]
  have hsqrt2 : (1 : ℝ) ≤ Real.sqrt 2 := by
    rw [show (1 : ℝ) = Real.sqrt 1 by rw [Real.sqrt_one]]
    exact Real.sqrt_le_sqrt (by norm_num)
  have h4 : shouldEmitPhoton emitUniverse (constRng 0 0) tiltedElectron = true := by
    unfold shouldEmitPhoton
    rw [show tiltedElectron.vx * tiltedElectron.vx + tiltedElectron.vy * tiltedElectron.vy
        + tiltedElectron.vz * tiltedElectron.vz = 2 by
      norm_num [tiltedElectron, newParticle]]
    rw [if_neg (by
      rw [show emitUniverse.photonEmissionSpeedThreshold = 1e-3 from rfl]
      intro hlt
      linarith)]
    rw [decide_eq_true_eq]
    rw [show constRng 0 0 = 0 from rfl,
      show emitUniverse.photonEmissionSpeedThreshold = 1e-3 from rfl]
    have hs2 : (0 : ℝ) < Real.sqrt 2 := by linarith
    positivity
  have hsweep : (checkAndEmitPhotons srcConfig (constRng 0) emitUniverse).1.particles
      = [(managePhotonEmission srcConfig emitUniverse tiltedElectron
          (emittedSpeedArg emitUniverse tiltedElectron) tiltedElectron.vx tiltedElectron.vy
          (if emitUniverse.mode3D = true then tiltedElectron.vz else 0) 0.9).1] := by
    show ((emitSweep srcConfig emitUniverse [tiltedElectron] (constRng 0)).1 ++
        (emitSweep srcConfig emitUniverse [tiltedElectron] (constRng 0)).2.1) = _
    simp only [emitSweep]
    rw [if_neg h1, if_neg h2, if_pos h4]
    rw [managePhotonEmission_snd_disabled srcConfig rfl]
    simp [emittedSpeedArg]
  have hvz1 : tiltedElectron.vz = 1 := rfl
  refine ⟨?_, ?_, ?_, ?_⟩
  · rw [hsweep]
    rw [show ([(managePhotonEmission srcConfig emitUniverse tiltedElectron
        (emittedSpeedArg emitUniverse tiltedElectron) tiltedElectron.vx tiltedElectron.vy
        (if emitUniverse.mode3D = true then tiltedElectron.vz else 0) 0.9).1].getD 0
        particle0) = (managePhotonEmission srcConfig emitUniverse tiltedElectron
        (emittedSpeedArg emitUniverse tiltedElectron) tiltedElectron.vx tiltedElectron.vy
        (if emitUniverse.mode3D = true then tiltedElectron.vz else 0) 0.9).1 from rfl]
    rw [managePhotonEmission_fst]
    show (if emitUniverse.mode3D = true then tiltedElectron.vz / (1 / Real.sqrt (1 - 0.9))
        else tiltedElectron.vz) = 1
    rw [if_neg (by norm_num [emitUniverse, baseUniverse, mkUniverse])]
    exact hvz1
  · rw [hsweep]
    rw [show ([(managePhotonEmission srcConfig emitUniverse tiltedElectron
        (emittedSpeedArg emitUniverse tiltedElectron) tiltedElectron.vx tiltedElectron.vy
        (if emitUniverse.mode3D = true then tiltedElectron.vz else 0) 0.9).1].getD 0
        particle0) = (managePhotonEmission srcConfig emitUniverse tiltedElectron
        (emittedSpeedArg emitUniverse tiltedElectron) tiltedElectron.vx tiltedElectron.vy
        (if emitUniverse.mode3D = true then tiltedElectron.vz else 0) 0.9).1 from rfl]
    rw [managePhotonEmission_fst]
    show tiltedElectron.vx / (1 / Real.sqrt (1 - 0.9)) = Real.sqrt (1 - 0.9)
    rw [div_div_eq_mul_div, div_one, show tiltedElectron.vx = 1 from rfl, one_mul]
  · rw [hsweep]
    rfl
  · rw [mul_one]
    intro h
    have h2' := Real.sq_sqrt (show (0:ℝ) ≤ 1 - 0.9 by norm_num)
    rw [← h] at h2'
    norm_num at h2'

/-! ### C6 — Newton's third law in the pairwise accumulation -/

theorem mem_drop_range {n m j : ℕ} (h : j ∈ (List.range n).drop m) : m ≤ j ∧ j < n := by
  constructor
  · obtain ⟨k, hk, he⟩ := List.mem_iff_getElem.mp h
    rw [List.getElem_drop, List.getElem_range] at he
    omega
  · exact List.mem_range.mp (List.mem_of_mem_drop h)

theorem getD_set_lt (l : List V3) (i : ℕ) (v : V3) (h : i < l.length) :
    (l.set i v).getD i 0 = v := by
  rw [List.getD_eq_getElem?_getD, List.getElem?_set_self h]
  rfl

theorem getD_set_ne' (l : List V3) (i j : ℕ) (v : V3) (h : i ≠ j) :
    (l.set i v).getD j 0 = l.getD j 0 := by
  rw [List.getD_eq_getElem?_getD, List.getElem?_set_ne h, ← List.getD_eq_getElem?_getD]

/-- The force function of the pairwise loop is antisymmetric: swapping the
pair negates every component (in the exact-real model; magnitudes, distances
and the softened denominators are symmetric in the pair). -/
theorem calculateForce_antisymm (U : Universe) (p q : Particle) :
    calculateForce U p q = -calculateForce U q p := by
  by_cases hs : U.strongForceEnabled = true <;>
    by_cases hm : U.mode3D = true <;>
      simp only [calculateForce, calculateElectrostaticForce, calculateStrongForce,
        hs, hm, if_true, Bool.false_eq_true, if_false, Prod.neg_mk, Prod.mk.injEq] <;>
      refine ⟨?_, ?_, ?_⟩ <;>
      first
        | (rw [show (p.x - q.x) * (p.x - q.x) + (p.y - q.y) * (p.y - q.y) +
              (p.z - q.z) * (p.z - q.z)
              = (q.x - p.x) * (q.x - p.x) + (q.y - p.y) * (q.y - p.y) +
              (q.z - p.z) * (q.z - p.z) by ring]; ring)
        | (rw [show (p.x - q.x) * (p.x - q.x) + (p.y - q.y) * (p.y - q.y) + 0 * 0
              = (q.x - p.x) * (q.x - p.x) + (q.y - p.y) * (q.y - p.y) + 0 * 0 by ring];
            ring)
        | ring

/-- One pairwise update (add at `i`, subtract at `j`) leaves the total of
the force array unchanged. -/
theorem pairBody_sum (U : Universe) (ps : List Particle) (i j : ℕ) (forces : List V3)
    (hij : i ≠ j) (hi : i < forces.length) (hj : j < forces.length) :
    (pairBody U ps i forces j).sum = forces.sum := by
  unfold pairBody
  split_ifs
  · rfl
  · have hj1 : j < (forces.set i (forces.getD i 0 +
        calculateForce U (ps.getD i particle0) (ps.getD j particle0))).length := by
      simpa using hj
    rw [List.sum_set', dif_pos hj1, List.sum_set', dif_pos hi]
    rw [getD_set_ne' _ _ _ _ hij]
    rw [List.getElem_set_ne hij]
    simp only [List.getD_eq_getElem forces 0 hi, List.getD_eq_getElem forces 0 hj]
    abel

/-- The accumulated pairwise forces always total to the zero vector: every
contribution enters once positively and once negatively. -/
theorem accumulatePairForces_sum (U : Universe) (ps : List Particle) :
    (accumulatePairForces U ps).sum = 0 := by
  unfold accumulatePairForces
  have key : ∀ (l : List ℕ), (∀ i ∈ l, i < ps.length) →
      ∀ forces : List V3, forces.length = ps.length → forces.sum = 0 →
      ((l.foldl (fun forces i =>
        if (ps.getD i particle0).isPhoton = true then forces
        else ((List.range ps.length).drop (i + 1)).foldl (pairBody U ps i) forces)
        forces).sum = 0 ∧
       (l.foldl (fun forces i =>
        if (ps.getD i particle0).isPhoton = true then forces
        else ((List.range ps.length).drop (i + 1)).foldl (pairBody U ps i) forces)
        forces).length = ps.length) := by
    intro l
    induction l with
    | nil => intro _ forces hlen hsum; exact ⟨hsum, hlen⟩
    | cons i t ih =>
      intro hmem forces hlen hsum
      rw [List.foldl_cons]
      apply ih (fun k hk => hmem k (List.mem_cons_of_mem _ hk))
      all_goals {
        by_cases hph : (ps.getD i particle0).isPhoton = true
        · rw [if_pos hph]
          first | exact hlen | exact hsum
        · rw [if_neg hph]
          have inner : ∀ (m : List ℕ), (∀ j ∈ m, i < j ∧ j < ps.length) →
              ∀ fs : List V3, fs.length = ps.length → fs.sum = forces.sum →
              ((m.foldl (pairBody U ps i) fs).sum = forces.sum ∧
               (m.foldl (pairBody U ps i) fs).length = ps.length) := by
            intro m
            induction m with
            | nil => intro _ fs h1 h2; exact ⟨h2, h1⟩
            | cons j t' ih' =>
              intro hmem' fs h1 h2
              rw [List.foldl_cons]
              apply ih' (fun k hk => hmem' k (List.mem_cons_of_mem _ hk))
              · rw [pairBody_length]
                exact h1
              · obtain ⟨hij, hjn⟩ := hmem' j (List.mem_cons_self _ _)
                rw [pairBody_sum U ps i j fs (by omega)
                  (by rw [h1]; exact hmem i (List.mem_cons_self _ _))
                  (by rw [h1]; exact hjn)]
                exact h2
          have := inner ((List.range ps.length).drop (i + 1))
            (fun j hj => by
              obtain ⟨h1, h2⟩ := mem_drop_range hj
              exact ⟨by omega, h2⟩)
            forces hlen rfl
          first
            | (rw [this.1]; exact hsum)
            | exact this.2
      }
  have := key (List.range ps.length) (fun i hi => List.mem_range.mp hi)
    (List.replicate ps.length 0) (List.length_replicate _ _) (by simp)
  exact this.1

/-- C6: Newton's third law in the per-tick pairwise accumulation.  For every
non-photon pair `(i, j)` the inner-loop body `pairBody` adds exactly
`calculateForce(ps[i], ps[j])` to slot `i` and exactly its component-wise
negation to slot `j`, leaving all other slots unchanged; the force function
itself is antisymmetric (`F(p,q) = -F(q,p)`); and consequently the
accumulated pairwise forces always sum to the zero vector. -/
theorem newton_third_law (U : Universe) :
    (∀ p q : Particle, calculateForce U p q = -calculateForce U q p) ∧
    (∀ (ps : List Particle) (forces : List V3) (i j : ℕ),
      i ≠ j → i < forces.length → j < forces.length →
      (ps.getD i particle0).isPhoton = false → (ps.getD j particle0).isPhoton = false →
      (pairBody U ps i forces j).getD i 0 - forces.getD i 0
          = calculateForce U (ps.getD i particle0) (ps.getD j particle0) ∧
      (pairBody U ps i forces j).getD j 0 - forces.getD j 0
          = -(calculateForce U (ps.getD i particle0) (ps.getD j particle0)) ∧
      (∀ k : ℕ, k ≠ i → k ≠ j →
        (pairBody U ps i forces j).getD k 0 = forces.getD k 0)) ∧
    (∀ ps : List Particle, (accumulatePairForces U ps).sum = 0) := by
  refine ⟨calculateForce_antisymm U, ?_, accumulatePairForces_sum U⟩
  intro ps forces i j hij hi hj hphi hphj
  unfold pairBody
  rw [if_neg (by simp only [hphj]; exact Bool.false_ne_true)]
  refine ⟨?_, ?_, ?_⟩
  · rw [getD_set_ne' _ _ _ _ (Ne.symm hij)]
    rw [getD_set_lt _ _ _ hi]
    abel
  · rw [getD_set_lt _ _ _ (by simpa using hj)]
    rw [getD_set_ne' _ _ _ _ hij]
    abel
  · intro k hki hkj
    rw [getD_set_ne' _ _ _ _ (Ne.symm hkj), getD_set_ne' _ _ _ _ (Ne.symm hki)]

/-! ### C4 / C5 — boundary handling -/

theorem clampCoord_mem (size c : ℝ) (h : 0 ≤ size) :
    0 ≤ clampCoord size c ∧ clampCoord size c ≤ size := by
  unfold clampCoord
  split_ifs <;> constructor <;> linarith

theorem reflectCoord_mem (size c v : ℝ) (h1 : -size ≤ c) (h2 : c ≤ 2 * size) :
    0 ≤ (reflectCoord size c v).1 ∧ (reflectCoord size c v).1 ≤ size := by
  unfold reflectCoord
  split_ifs <;> constructor <;> dsimp only <;> linarith

theorem reflectCoord_speed (size c v : ℝ) :
    (reflectCoord size c v).2 * (reflectCoord size c v).2 = v * v := by
  unfold reflectCoord
  split_ifs <;> dsimp only <;> ring

/-- Boundary handling never changes a particle's kind fields. -/
theorem applyBoundaryConditions_flags (U : Universe) (p : Particle) :
    (applyBoundaryConditions U p).isPhoton = p.isPhoton ∧
    (applyBoundaryConditions U p).fixed = p.fixed ∧
    (applyBoundaryConditions U p).charge = p.charge := by
  unfold applyBoundaryConditions
  split_ifs <;> exact ⟨rfl, rfl, rfl⟩

/-- The non-photon branch of the boundary handler: positions are clamped per
axis (z only in 3D); on a hit, `vx` and `vy` are zeroed, `vz` only in 3D. -/
theorem applyBoundaryConditions_nonphoton (U : Universe) (p : Particle)
    (hph : p.isPhoton = false) :
    (applyBoundaryConditions U p).x = clampCoord U.size p.x ∧
    (applyBoundaryConditions U p).y = clampCoord U.size p.y ∧
    (applyBoundaryConditions U p).z
        = (if U.mode3D = true then clampCoord U.size p.z else p.z) ∧
    (hitBoundaryCond U p →
      (applyBoundaryConditions U p).vx = 0 ∧ (applyBoundaryConditions U p).vy = 0 ∧
      (U.mode3D = true → (applyBoundaryConditions U p).vz = 0) ∧
      (U.mode3D = false → (applyBoundaryConditions U p).vz = p.vz)) ∧
    (¬hitBoundaryCond U p →
      (applyBoundaryConditions U p).vx = p.vx ∧ (applyBoundaryConditions U p).vy = p.vy ∧
      (applyBoundaryConditions U p).vz = p.vz) := by
  unfold applyBoundaryConditions
  rw [if_neg (by simp only [hph]; exact Bool.false_ne_true)]
  by_cases hhit : hitBoundaryCond U p
  · rw [if_pos hhit]
    by_cases hm : U.mode3D = true
    · rw [if_pos hm]
      exact ⟨rfl, rfl, rfl,
        fun _ => ⟨rfl, rfl, fun _ => rfl, fun hmf => by simp [hm] at hmf⟩,
        fun hn => absurd hhit hn⟩
    · rw [if_neg hm]
      exact ⟨rfl, rfl, rfl,
        fun _ => ⟨rfl, rfl, fun hmt => absurd hmt hm, fun _ => rfl⟩,
        fun hn => absurd hhit hn⟩
  · rw [if_neg hhit]
    exact ⟨rfl, rfl, rfl, fun h => absurd h hhit, fun _ => ⟨rfl, rfl, rfl⟩⟩

/-- The photon branch of the boundary handler: per-axis reflection. -/
theorem applyBoundaryConditions_photon (U : Universe) (p : Particle)
    (hph : p.isPhoton = true) :
    (applyBoundaryConditions U p).x = (reflectCoord U.size p.x p.vx).1 ∧
    (applyBoundaryConditions U p).vx = (reflectCoord U.size p.x p.vx).2 ∧
    (applyBoundaryConditions U p).y = (reflectCoord U.size p.y p.vy).1 ∧
    (applyBoundaryConditions U p).vy = (reflectCoord U.size p.y p.vy).2 ∧
    (U.mode3D = true →
      (applyBoundaryConditions U p).z = (reflectCoord U.size p.z p.vz).1 ∧
      (applyBoundaryConditions U p).vz = (reflectCoord U.size p.z p.vz).2) ∧
    (U.mode3D = false →
      (applyBoundaryConditions U p).z = p.z ∧
      (applyBoundaryConditions U p).vz = p.vz) := by
  unfold applyBoundaryConditions
  rw [if_pos hph]
  by_cases hm : U.mode3D = true
  · rw [if_pos hm]
    exact ⟨rfl, rfl, rfl, rfl, fun _ => ⟨rfl, rfl⟩, fun hmf => by simp [hm] at hmf⟩
  · rw [if_neg hm]
    exact ⟨rfl, rfl, rfl, rfl, fun hmt => absurd hmt hm, fun _ => ⟨rfl, rfl⟩⟩

/-- Integration and boundary handling never change a particle's kind
fields. -/
theorem updateParticleMotion_flags (U : Universe) (p : Particle) (fx fy fz : ℝ) :
    (updateParticleMotion U p fx fy fz).isPhoton = p.isPhoton ∧
    (updateParticleMotion U p fx fy fz).fixed = p.fixed ∧
    (updateParticleMotion U p fx fy fz).charge = p.charge := by
  simp only [updateParticleMotion]
  split_ifs <;>
    first
      | exact ⟨rfl, rfl, rfl⟩
      | exact applyBoundaryConditions_flags U _

/-- `updateParticleMotion` only reads the universe's `size`, `mode3D`,
`staticProtons` and `dt`; universes agreeing there act identically. -/
theorem updateParticleMotion_congr (U W : Universe)
    (hsz : W.size = U.size) (hm : W.mode3D = U.mode3D)
    (hsp : W.staticProtons = U.staticProtons) (hdt : W.dt = U.dt) :
    updateParticleMotion W = updateParticleMotion U := by
  obtain ⟨s, e, em, th, ad, ma, st, sf, sfc, g, gc, gg, ggc, m3, ps, dt⟩ := U
  obtain ⟨s', e', em', th', ad', ma', st', sf', sfc', g', gc', gg', ggc', m3', ps', dt'⟩ := W
  simp only at hsz hm hsp hdt
  subst hsz
  subst hm
  subst hsp
  subst hdt
  rfl

/-- For a photon the passed force is ignored. -/
theorem updateParticleMotion_photon_force_irrel (U : Universe) (q : Particle)
    (hq : q.isPhoton = true) (fx fy fz : ℝ) :
    updateParticleMotion U q fx fy fz = updateParticleMotion U q 0 0 0 := by
  unfold updateParticleMotion
  rw [if_pos hq, if_pos hq]

/-- Every particle present after `step` is the image of some particle under
`updateParticleMotion`, run in a universe with the same `size`, `mode3D`,
`staticProtons` and `dt` (the intermediate universe differs from `U` only in
its particle list). -/
theorem step_particles_shape (cfg : Config) (rng : ℕ → ℝ) (U : Universe) :
    ∀ p' ∈ (step cfg rng U).particles, ∃ W q fx fy fz,
      p' = updateParticleMotion W q fx fy fz ∧
      W.size = U.size ∧ W.mode3D = U.mode3D ∧ W.staticProtons = U.staticProtons ∧
      W.dt = U.dt := by
  intro p' hp'
  simp only [step] at hp'
  obtain ⟨pair, hmem, heq⟩ := List.mem_map.mp hp'
  exact ⟨_, pair.1, pair.2.1, pair.2.2.1, pair.2.2.2, heq.symm, rfl, rfl, rfl, rfl⟩

/-- Every particle present after `step` is an `updateParticleMotion` image
in `U` itself. -/
theorem step_particles_shape_U (cfg : Config) (rng : ℕ → ℝ) (U : Universe) :
    ∀ p' ∈ (step cfg rng U).particles, ∃ q fx fy fz,
      p' = updateParticleMotion U q fx fy fz := by
  intro p' hp'
  obtain ⟨W, q, fx, fy, fz, hpe, h1, h2, h3, h4⟩ := step_particles_shape cfg rng U p' hp'
  refine ⟨q, fx, fy, fz, ?_⟩
  rw [hpe, updateParticleMotion_congr U W h1 h2 h3 h4]

/-- A processed (non-fixed, non-static-proton) non-photon ends the update
clamped into the box on the active axes, and a boundary hit zeroes the
active velocity components. -/
theorem updateParticleMotion_clamped (U : Universe) (q : Particle) (fx fy fz : ℝ)
    (hsz : 0 ≤ U.size) (hph : q.isPhoton = false) (hfix : q.fixed = false)
    (hst : ¬(U.staticProtons = true ∧ 0 < q.charge)) :
    (0 ≤ (updateParticleMotion U q fx fy fz).x ∧
      (updateParticleMotion U q fx fy fz).x ≤ U.size) ∧
    (0 ≤ (updateParticleMotion U q fx fy fz).y ∧
      (updateParticleMotion U q fx fy fz).y ≤ U.size) ∧
    (U.mode3D = true → 0 ≤ (updateParticleMotion U q fx fy fz).z ∧
      (updateParticleMotion U q fx fy fz).z ≤ U.size) ∧
    (hitBoundaryCond U (integrateMotion U q fx fy fz) →
      (updateParticleMotion U q fx fy fz).vx = 0 ∧
      (updateParticleMotion U q fx fy fz).vy = 0 ∧
      (U.mode3D = true → (updateParticleMotion U q fx fy fz).vz = 0)) := by
  have hupd : updateParticleMotion U q fx fy fz =
      applyBoundaryConditions U (integrateMotion U
        { q with forceElectroX := fx, forceElectroY := fy, forceElectroZ := fz } fx fy fz) := by
    simp only [updateParticleMotion]
    rw [if_neg (by simp only [hph]; exact Bool.false_ne_true)]
    rw [if_neg (by simp only [hfix]; exact Bool.false_ne_true)]
    rw [if_neg hst]
  set m := integrateMotion U
    { q with forceElectroX := fx, forceElectroY := fy, forceElectroZ := fz } fx fy fz with hm
  have hmph : m.isPhoton = false := hph
  have habc := applyBoundaryConditions_nonphoton U m hmph
  have hhitiff : hitBoundaryCond U (integrateMotion U q fx fy fz) = hitBoundaryCond U m := rfl
  rw [hupd]
  refine ⟨?_, ?_, ?_, ?_⟩
  · rw [habc.1]
    exact clampCoord_mem U.size m.x hsz
  · rw [habc.2.1]
    exact clampCoord_mem U.size m.y hsz
  · intro h3
    rw [habc.2.2.1, if_pos h3]
    exact clampCoord_mem U.size m.z hsz
  · intro hhit
    rw [hhitiff] at hhit
    obtain ⟨h1, h2, h3, _⟩ := habc.2.2.2.1 hhit
    exact ⟨h1, h2, h3⟩

/-- C4 (amended): after `step()`, every non-photon, non-fixed particle that
is actually integrated (i.e. not a static proton with `staticProtons` on)
has its x and y coordinates in `[0, size]`, and its z coordinate too in 3D
mode; and a particle whose integrated position hit the boundary on some axis
has its ACTIVE velocity components zeroed — `vx` and `vy` always, `vz` only
in 3D mode.  The original claim fails for static protons (skipped entirely,
never clamped) and for the dormant `vz` / `z` fields in 2D mode. -/
theorem step_clamps_particles (cfg : Config) (rng : ℕ → ℝ) (U : Universe)
    (hsz : 0 ≤ U.size) :
    (∀ p' ∈ (step cfg rng U).particles, p'.isPhoton = false → p'.fixed = false →
      ¬(U.staticProtons = true ∧ 0 < p'.charge) →
      (0 ≤ p'.x ∧ p'.x ≤ U.size) ∧ (0 ≤ p'.y ∧ p'.y ≤ U.size) ∧
      (U.mode3D = true → 0 ≤ p'.z ∧ p'.z ≤ U.size)) ∧
    (∀ (q : Particle) (fx fy fz : ℝ), q.isPhoton = false → q.fixed = false →
      ¬(U.staticProtons = true ∧ 0 < q.charge) →
      hitBoundaryCond U (integrateMotion U q fx fy fz) →
      (updateParticleMotion U q fx fy fz).vx = 0 ∧
      (updateParticleMotion U q fx fy fz).vy = 0 ∧
      (U.mode3D = true → (updateParticleMotion U q fx fy fz).vz = 0)) := by
  constructor
  · intro p' hp' hph hfix hst
    obtain ⟨q, fx, fy, fz, hpe⟩ := step_particles_shape_U cfg rng U p' hp'
    have hflags := updateParticleMotion_flags U q fx fy fz
    rw [hpe] at hph hfix hst ⊢
    rw [hflags.1] at hph
    rw [hflags.2.1] at hfix
    rw [hflags.2.2] at hst
    obtain ⟨h1, h2, h3, _⟩ := updateParticleMotion_clamped U q fx fy fz hsz hph hfix hst
    exact ⟨h1, h2, h3⟩
  · intro q fx fy fz hph hfix hst hhit
    exact (updateParticleMotion_clamped U q fx fy fz hsz hph hfix hst).2.2.2 hhit

/-- Witness for C4: the default universe (`size = 1 ≥ 0`). -/
theorem step_clamps_particles_witness :
    (∀ p' ∈ (step srcConfig (constRng 0) baseUniverse).particles,
      p'.isPhoton = false → p'.fixed = false →
      ¬(baseUniverse.staticProtons = true ∧ 0 < p'.charge) →
      (0 ≤ p'.x ∧ p'.x ≤ baseUniverse.size) ∧ (0 ≤ p'.y ∧ p'.y ≤ baseUniverse.size) ∧
      (baseUniverse.mode3D = true → 0 ≤ p'.z ∧ p'.z ≤ baseUniverse.size)) ∧
    (∀ (q : Particle) (fx fy fz : ℝ), q.isPhoton = false → q.fixed = false →
      ¬(baseUniverse.staticProtons = true ∧ 0 < q.charge) →
      hitBoundaryCond baseUniverse (integrateMotion baseUniverse q fx fy fz) →
      (updateParticleMotion baseUniverse q fx fy fz).vx = 0 ∧
      (updateParticleMotion baseUniverse q fx fy fz).vy = 0 ∧
      (baseUniverse.mode3D = true →
        (updateParticleMotion baseUniverse q fx fy fz).vz = 0)) :=
  step_clamps_particles srcConfig (constRng 0) baseUniverse
    (by norm_num [baseUniverse, mkUniverse])

/-- C5 (amended): per-axis facts about every photon surviving a `step`: it
is the boundary-handled straight-line move of a pre-update photon; the
reflection never changes the squared speed; and the post-update coordinate
on an active axis lies in `[0, size]` PROVIDED the straight-line move
overshoots by at most `size` on that axis (`-size ≤ moved ≤ 2·size`) — a
photon fast enough to overshoot farther is reflected to a point outside the
box, so the unconditional claim fails. -/
theorem step_photon_reflection (cfg : Config) (rng : ℕ → ℝ) (U : Universe) :
    (∀ p' ∈ (step cfg rng U).particles, p'.isPhoton = true →
      ∃ q, q.isPhoton = true ∧ p' = updateParticleMotion U q 0 0 0) ∧
    (∀ q : Particle, q.isPhoton = true →
      (updateParticleMotion U q 0 0 0).vx * (updateParticleMotion U q 0 0 0).vx +
        (updateParticleMotion U q 0 0 0).vy * (updateParticleMotion U q 0 0 0).vy +
        (updateParticleMotion U q 0 0 0).vz * (updateParticleMotion U q 0 0 0).vz
        = q.vx * q.vx + q.vy * q.vy + q.vz * q.vz) ∧
    (∀ q : Particle, q.isPhoton = true →
      (-U.size ≤ q.x + q.vx * U.dt → q.x + q.vx * U.dt ≤ 2 * U.size →
        0 ≤ (updateParticleMotion U q 0 0 0).x ∧
        (updateParticleMotion U q 0 0 0).x ≤ U.size) ∧
      (-U.size ≤ q.y + q.vy * U.dt → q.y + q.vy * U.dt ≤ 2 * U.size →
        0 ≤ (updateParticleMotion U q 0 0 0).y ∧
        (updateParticleMotion U q 0 0 0).y ≤ U.size) ∧
      (U.mode3D = true → -U.size ≤ q.z + q.vz * U.dt → q.z + q.vz * U.dt ≤ 2 * U.size →
        0 ≤ (updateParticleMotion U q 0 0 0).z ∧
        (updateParticleMotion U q 0 0 0).z ≤ U.size) ∧
      (U.mode3D = false → (updateParticleMotion U q 0 0 0).z = q.z)) := by
  have hupd : ∀ q : Particle, q.isPhoton = true → ∀ fx fy fz : ℝ,
      updateParticleMotion U q fx fy fz = applyBoundaryConditions U
        { q with
          x := q.x + q.vx * U.dt
          y := q.y + q.vy * U.dt
          z := if U.mode3D = true then q.z + q.vz * U.dt else q.z
          age := q.age + 1 } := by
    intro q hq fx fy fz
    simp only [updateParticleMotion]
    rw [if_pos hq]
  refine ⟨?_, ?_, ?_⟩
  · intro p' hp' hph
    obtain ⟨W, q, fx, fy, fz, hpe, h1, h2, h3, h4⟩ := step_particles_shape cfg rng U p' hp'
    have hflags := updateParticleMotion_flags W q fx fy fz
    have hqph : q.isPhoton = true := by
      rw [hpe, hflags.1] at hph
      exact hph
    refine ⟨q, hqph, ?_⟩
    rw [hpe, updateParticleMotion_congr U W h1 h2 h3 h4,
      updateParticleMotion_photon_force_irrel U q hqph]
  · intro q hq
    rw [hupd q hq 0 0 0]
    set m := ({ q with
      x := q.x + q.vx * U.dt
      y := q.y + q.vy * U.dt
      z := if U.mode3D = true then q.z + q.vz * U.dt else q.z
      age := q.age + 1 } : Particle) with hmdef
    have hmph : m.isPhoton = true := hq
    have habc := applyBoundaryConditions_photon U m hmph
    rw [habc.2.1, habc.2.2.2.1]
    have hx := reflectCoord_speed U.size m.x m.vx
    have hy := reflectCoord_speed U.size m.y m.vy
    by_cases hm3 : U.mode3D = true
    · rw [(habc.2.2.2.2.1 hm3).2]
      have hz := reflectCoord_speed U.size m.z m.vz
      rw [hx, hy, hz]
    · rw [(habc.2.2.2.2.2 (by simpa using hm3)).2]
      rw [hx, hy]
  · intro q hq
    rw [hupd q hq 0 0 0]
    set m := ({ q with
      x := q.x + q.vx * U.dt
      y := q.y + q.vy * U.dt
      z := if U.mode3D = true then q.z + q.vz * U.dt else q.z
      age := q.age + 1 } : Particle) with hmdef
    have hmph : m.isPhoton = true := hq
    have habc := applyBoundaryConditions_photon U m hmph
    refine ⟨?_, ?_, ?_, ?_⟩
    · intro hl hr
      rw [habc.1]
      exact reflectCoord_mem U.size m.x m.vx hl hr
    · intro hl hr
      rw [habc.2.2.1]
      exact reflectCoord_mem U.size m.y m.vy hl hr
    · intro hm3 hl hr
      rw [(habc.2.2.2.2.1 hm3).1]
      refine reflectCoord_mem U.size m.z m.vz ?_ ?_
      · show -U.size ≤ (if U.mode3D = true then q.z + q.vz * U.dt else q.z)
        rw [if_pos hm3]
        exact hl
      · show (if U.mode3D = true then q.z + q.vz * U.dt else q.z) ≤ 2 * U.size
        rw [if_pos hm3]
        exact hr
    · intro hm3
      rw [(habc.2.2.2.2.2 hm3).1]
      show (if U.mode3D = true then q.z + q.vz * U.dt else q.z) = q.z
      rw [if_neg (by simp [hm3])]

/-- If the list holds no electron, the absorption scan never fires. -/
theorem absorbScan_no_electron (U : Universe) (ps : List Particle)
    (h : ∀ e ∈ ps, ¬(e.charge < 0 ∧ e.isPhoton = false)) (photon : Particle) :
    ∀ (idxs : List ℕ) (rng : ℕ → ℝ),
      absorbScan U photon idxs ps rng = (ps, rng, false) := by
  intro idxs
  induction idxs with
  | nil => intro rng; rfl
  | cons j rest ih =>
    intro rng
    have hne : ¬ absorbs U photon (ps.getD j particle0) := by
      rintro ⟨he, -, -⟩
      by_cases hj : j < ps.length
      · refine h _ ?_ he
        rw [List.getD_eq_getElem _ _ hj]
        exact List.getElem_mem _
      · have h0 : ps.getD j particle0 = particle0 := by
          rw [List.getD_eq_getElem?_getD, List.getElem?_eq_none (by omega)]
          rfl
        rw [h0] at he
        norm_num [particle0] at he
    simp only [absorbScan]
    rw [if_neg hne]
    exact ih rng

/-- If the list holds no electron, the absorption sweep changes nothing. -/
theorem absorbSweep_no_electron (U : Universe) (ps : List Particle)
    (h : ∀ e ∈ ps, ¬(e.charge < 0 ∧ e.isPhoton = false)) :
    ∀ (idxs : List ℕ) (rem : List ℕ) (rng : ℕ → ℝ),
      absorbSweep U idxs (ps, rem, rng) = (ps, rem, rng) := by
  intro idxs
  induction idxs with
  | nil => intro rem rng; rfl
  | cons i rest ih =>
    intro rem rng
    simp only [absorbSweep]
    by_cases hph : (ps.getD i particle0).isPhoton = true
    · rw [if_pos hph, absorbScan_no_electron U ps h _ _ _]
      show absorbSweep U rest (ps, if false = true then rem ++ [i] else rem, rng)
          = (ps, rem, rng)
      rw [if_neg Bool.false_ne_true]
      exact ih rem rng
    · rw [if_neg hph]
      exact ih rem rng

/-- If the list holds no photon, the absorption sweep changes nothing. -/
theorem absorbSweep_no_photon (U : Universe) (ps : List Particle)
    (h : ∀ e ∈ ps, e.isPhoton = false) :
    ∀ (idxs : List ℕ) (rem : List ℕ) (rng : ℕ → ℝ),
      absorbSweep U idxs (ps, rem, rng) = (ps, rem, rng) := by
  intro idxs
  induction idxs with
  | nil => intro rem rng; rfl
  | cons i rest ih =>
    intro rem rng
    have hph : ¬ (ps.getD i particle0).isPhoton = true := by
      by_cases hj : i < ps.length
      · rw [List.getD_eq_getElem _ _ hj, h _ (List.getElem_mem _)]
        exact Bool.false_ne_true
      · rw [List.getD_eq_getElem?_getD, List.getElem?_eq_none (by omega)]
        exact Bool.false_ne_true
    simp only [absorbSweep]
    rw [if_neg hph]
    exact ih rem rng

/-- Absorption is the identity on a universe without electrons. -/
theorem handle_no_electron (rng : ℕ → ℝ) (U : Universe)
    (h : ∀ e ∈ U.particles, ¬(e.charge < 0 ∧ e.isPhoton = false)) :
    handlePhotonElectronCollisions rng U = (U, 0, rng) := by
  simp only [handlePhotonElectronCollisions]
  rw [absorbSweep_no_electron U U.particles h _ _ _]
  rfl

/-- Absorption is the identity on a universe without photons. -/
theorem handle_no_photon (rng : ℕ → ℝ) (U : Universe)
    (h : ∀ e ∈ U.particles, e.isPhoton = false) :
    handlePhotonElectronCollisions rng U = (U, 0, rng) := by
  simp only [handlePhotonElectronCollisions]
  rw [absorbSweep_no_photon U U.particles h _ _ _]
  rfl

/-- The emission sweep is the identity when no particle is an electron. -/
theorem emitSweep_no_electron (cfg : Config) (U : Universe) :
    ∀ (ps : List Particle), (∀ e ∈ ps, 0 ≤ e.charge ∨ e.isPhoton = true) →
    ∀ (rng : ℕ → ℝ), emitSweep cfg U ps rng = (ps, [], rng) := by
  intro ps
  induction ps with
  | nil => intro _ rng; rfl
  | cons p rest ih =>
    intro h rng
    simp only [emitSweep]
    rw [if_pos (h p (List.mem_cons_self _ _)),
      ih (fun e he => h e (List.mem_cons_of_mem _ he)) rng]

theorem addFieldForces_false (field : Particle → V3) (ps : List Particle)
    (forces : List V3) : addFieldForces false field ps forces = forces := by
  unfold addFieldForces
  rw [if_neg Bool.false_ne_true]

theorem accumulatePairForces_singleton (U : Universe) (p : Particle) :
    accumulatePairForces U [p] = [0] := by
  unfold accumulatePairForces
  rw [show ([p] : List Particle).length = 1 from rfl,
    show List.range 1 = [0] from rfl, List.foldl_cons, List.foldl_nil]
  by_cases h : (([p].getD 0 particle0)).isPhoton = true
  · rw [if_pos h]
    rfl
  · rw [if_neg h]
    rfl

/-- Counterexample to C4 as stated: in the shipped 2D universe, an electron
starting at x = -5 with vz = 1 is clamped to x = 0 during the step, its vx
and vy are zeroed, but its vz is still 1 after the step — a clamped particle
does NOT have all of its velocity components zeroed. -/
theorem step_clamp_vz_cex :
    strayElectron.x = -5 ∧
    ((step srcConfig (constRng 1) clampUniverse).particles.getD 0 particle0).x = 0 ∧
    ((step srcConfig (constRng 1) clampUniverse).particles.getD 0 particle0).vx = 0 ∧
    ((step srcConfig (constRng 1) clampUniverse).particles.getD 0 particle0).vy = 0 ∧
    ((step srcConfig (constRng 1) clampUniverse).particles.getD 0 particle0).vz = 1 ∧
    ((step srcConfig (constRng 1) clampUniverse).particles.getD 0 particle0).isPhoton = false ∧
    ((step srcConfig (constRng 1) clampUniverse).particles.getD 0 particle0).fixed = false ∧
    ((step srcConfig (constRng 1) clampUniverse).particles.getD 0 particle0).charge = -1 ∧
    (1 : ℝ) ≠ 0 := by
  have hre : ({ strayElectron with
      forceElectroX := 0
      forceElectroY := 0
      forceElectroZ := 0 } : Particle) = strayElectron := rfl
  have habs : handlePhotonElectronCollisions (constRng 1) clampUniverse
      = (clampUniverse, 0, constRng 1) := by
    refine handle_no_photon (constRng 1) clampUniverse ?_
    intro e he
    rw [show clampUniverse.particles = [strayElectron] from rfl, List.mem_singleton] at he
    subst he
    rfl
  have hs : shouldEmitPhoton clampUniverse (constRng 1 0) strayElectron = false := by
    simp only [shouldEmitPhoton]
    rw [show strayElectron.vx * strayElectron.vx + strayElectron.vy * strayElectron.vy +
        strayElectron.vz * strayElectron.vz = (1 : ℝ) by norm_num [strayElectron, newParticle],
      Real.sqrt_one,
      if_neg (show ¬((1 : ℝ) < clampUniverse.photonEmissionSpeedThreshold) by
        norm_num [clampUniverse, baseUniverse, mkUniverse]),
      show constRng 1 0 = (1 : ℝ) from rfl,
      show clampUniverse.photonEmissionSpeedThreshold = (1e-3 : ℝ) from rfl]
    exact decide_eq_false (by norm_num)
  have hfull : fullSpeed strayElectron = 1 := by
    simp only [fullSpeed]
    rw [show strayElectron.vx * strayElectron.vx + strayElectron.vy * strayElectron.vy +
        strayElectron.vz * strayElectron.vz = (1 : ℝ) by norm_num [strayElectron, newParticle]]
    exact Real.sqrt_one
  have hsw : emitSweep srcConfig clampUniverse [strayElectron] (constRng 1)
      = ([strayElectron], [], fun n => constRng 1 (n + 1)) := by
    simp only [emitSweep]
    rw [if_neg (show ¬(0 ≤ strayElectron.charge ∨ strayElectron.isPhoton = true) by
        norm_num [strayElectron, newParticle]),
      if_neg (show ¬(srcConfig.onePhotonPerElectron = true ∧
          strayElectron.hasEmittedPhoton = true) by
        norm_num [srcConfig, strayElectron, newParticle]),
      hs, if_neg Bool.false_ne_true, hfull,
      if_neg (show ¬((1 : ℝ) < clampUniverse.photonEmissionSpeedThreshold) by
        norm_num [clampUniverse, baseUniverse, mkUniverse])]
  have hchk : checkAndEmitPhotons srcConfig (constRng 1) clampUniverse
      = ({ clampUniverse with particles := [strayElectron] }, fun n => constRng 1 (n + 1)) := by
    simp only [checkAndEmitPhotons]
    rw [show clampUniverse.particles = [strayElectron] from rfl, hsw]
    rfl
  have hcomb : checkAndEmitPhotons srcConfig
      (handlePhotonElectronCollisions (constRng 1) clampUniverse).2.2
      (handlePhotonElectronCollisions (constRng 1) clampUniverse).1
      = ({ clampUniverse with particles := [strayElectron] }, fun n => constRng 1 (n + 1)) := by
    rw [habs]
    exact hchk
  have hstep : (step srcConfig (constRng 1) clampUniverse).particles
      = [updateParticleMotion { clampUniverse with particles := [strayElectron] }
          { strayElectron with
            forceElectroX := 0
            forceElectroY := 0
            forceElectroZ := 0 } 0 0 0] := by
    simp only [step]
    rw [hcomb]
    dsimp only [List.map]
    rfl
  have hcg : updateParticleMotion { clampUniverse with particles := [strayElectron] }
      = updateParticleMotion clampUniverse :=
    updateParticleMotion_congr clampUniverse _ rfl rfl rfl rfl
  have hpart : (step srcConfig (constRng 1) clampUniverse).particles.getD 0 particle0
      = updateParticleMotion clampUniverse strayElectron 0 0 0 := by
    rw [hstep]
    rw [hcg]
    rw [hre]
    rfl
  have hform : updateParticleMotion clampUniverse strayElectron 0 0 0
      = applyBoundaryConditions clampUniverse
          (integrateMotion clampUniverse strayElectron 0 0 0) := by
    have hre2 := hre
    dsimp only at hre2
    simp only [updateParticleMotion]
    rw [if_neg (show ¬(strayElectron.isPhoton = true) by norm_num [strayElectron, newParticle]),
      if_neg (show ¬(strayElectron.fixed = true) by norm_num [strayElectron, newParticle]),
      if_neg (show ¬(clampUniverse.staticProtons = true ∧ 0 < strayElectron.charge) by
        norm_num [clampUniverse, baseUniverse, mkUniverse, strayElectron, newParticle]),
      hre2]
  have hmx : (integrateMotion clampUniverse strayElectron 0 0 0).x = -5 := by
    norm_num [integrateMotion, strayElectron, newParticle, clampUniverse, baseUniverse,
      mkUniverse]
  have hmvz : (integrateMotion clampUniverse strayElectron 0 0 0).vz = 1 := by
    norm_num [integrateMotion, strayElectron, newParticle, clampUniverse, baseUniverse,
      mkUniverse]
  have hmph : (integrateMotion clampUniverse strayElectron 0 0 0).isPhoton = false := rfl
  have habc := applyBoundaryConditions_nonphoton clampUniverse
    (integrateMotion clampUniverse strayElectron 0 0 0) hmph
  have hhit : hitBoundaryCond clampUniverse (integrateMotion clampUniverse strayElectron 0 0 0) :=
    Or.inl (by rw [hmx]; norm_num)
  have hflags := applyBoundaryConditions_flags clampUniverse
    (integrateMotion clampUniverse strayElectron 0 0 0)
  have hzero := habc.2.2.2.1 hhit
  refine ⟨rfl, ?_, ?_, ?_, ?_, ?_, ?_, ?_, by norm_num⟩
  · rw [hpart, hform, habc.1, hmx, show clampUniverse.size = (1 : ℝ) from rfl]
    unfold clampCoord
    rw [if_pos (by norm_num : (-5 : ℝ) < 0)]
  · rw [hpart, hform]
    exact hzero.1
  · rw [hpart, hform]
    exact hzero.2.1
  · rw [hpart, hform, hzero.2.2.2 rfl, hmvz]
  · rw [hpart, hform, hflags.1]
    exact hmph
  · rw [hpart, hform, hflags.2.1]
    rfl
  · rw [hpart, hform, hflags.2.2]
    rfl

/-- Counterexample to C5 as stated: a photon at x = 0.5 with vx = -300 in the
unit 2D universe moves to x = -2.5 in one step and the single reflection
sends it to x = 2.5, which lies OUTSIDE [0, size] = [0, 1]: one reflection
pass does not confine a fast photon. -/
theorem step_photon_bounds_cex :
    ((step srcConfig (constRng 1) escapeUniverse).particles.getD 0 particle0).isPhoton
      = true ∧
    ((step srcConfig (constRng 1) escapeUniverse).particles.getD 0 particle0).x = 5 / 2 ∧
    escapeUniverse.size = 1 ∧
    ¬(((step srcConfig (constRng 1) escapeUniverse).particles.getD 0 particle0).x
        ≤ escapeUniverse.size) := by
  have hre : ({ fastPhoton with
      forceElectroX := 0
      forceElectroY := 0
      forceElectroZ := 0 } : Particle) = fastPhoton := rfl
  have habs : handlePhotonElectronCollisions (constRng 1) escapeUniverse
      = (escapeUniverse, 0, constRng 1) := by
    refine handle_no_electron (constRng 1) escapeUniverse ?_
    intro e he
    rw [show escapeUniverse.particles = [fastPhoton] from rfl, List.mem_singleton] at he
    subst he
    norm_num [fastPhoton, newParticle]
  have hsw : emitSweep srcConfig escapeUniverse [fastPhoton] (constRng 1)
      = ([fastPhoton], [], constRng 1) :=
    emitSweep_no_electron srcConfig escapeUniverse [fastPhoton]
      (by
        intro e he
        rw [List.mem_singleton] at he
        subst he
        right
        rfl)
      (constRng 1)
  have hchk : checkAndEmitPhotons srcConfig (constRng 1) escapeUniverse
      = ({ escapeUniverse with particles := [fastPhoton] }, constRng 1) := by
    simp only [checkAndEmitPhotons]
    rw [show escapeUniverse.particles = [fastPhoton] from rfl, hsw]
    rfl
  have hcomb : checkAndEmitPhotons srcConfig
      (handlePhotonElectronCollisions (constRng 1) escapeUniverse).2.2
      (handlePhotonElectronCollisions (constRng 1) escapeUniverse).1
      = ({ escapeUniverse with particles := [fastPhoton] }, constRng 1) := by
    rw [habs]
    exact hchk
  have hstep : (step srcConfig (constRng 1) escapeUniverse).particles
      = [updateParticleMotion { escapeUniverse with particles := [fastPhoton] }
          { fastPhoton with
            forceElectroX := 0
            forceElectroY := 0
            forceElectroZ := 0 } 0 0 0] := by
    simp only [step]
    rw [hcomb]
    dsimp only [List.map]
    rfl
  have hcg : updateParticleMotion { escapeUniverse with particles := [fastPhoton] }
      = updateParticleMotion escapeUniverse :=
    updateParticleMotion_congr escapeUniverse _ rfl rfl rfl rfl
  have hpart : (step srcConfig (constRng 1) escapeUniverse).particles.getD 0 particle0
      = updateParticleMotion escapeUniverse fastPhoton 0 0 0 := by
    rw [hstep]
    rw [hcg]
    rw [hre]
    rfl
  have hform : updateParticleMotion escapeUniverse fastPhoton 0 0 0
      = applyBoundaryConditions escapeUniverse
          { fastPhoton with
            x := fastPhoton.x + fastPhoton.vx * escapeUniverse.dt
            y := fastPhoton.y + fastPhoton.vy * escapeUniverse.dt
            z := if escapeUniverse.mode3D = true then
                fastPhoton.z + fastPhoton.vz * escapeUniverse.dt
              else fastPhoton.z
            age := fastPhoton.age + 1 } := by
    simp only [updateParticleMotion]
    rw [if_pos (show fastPhoton.isPhoton = true from rfl)]
  have hmph : ({ fastPhoton with
      x := fastPhoton.x + fastPhoton.vx * escapeUniverse.dt
      y := fastPhoton.y + fastPhoton.vy * escapeUniverse.dt
      z := if escapeUniverse.mode3D = true then
          fastPhoton.z + fastPhoton.vz * escapeUniverse.dt
        else fastPhoton.z
      age := fastPhoton.age + 1 } : Particle).isPhoton = true := rfl
  have habc := applyBoundaryConditions_photon escapeUniverse
    ({ fastPhoton with
      x := fastPhoton.x + fastPhoton.vx * escapeUniverse.dt
      y := fastPhoton.y + fastPhoton.vy * escapeUniverse.dt
      z := if escapeUniverse.mode3D = true then
          fastPhoton.z + fastPhoton.vz * escapeUniverse.dt
        else fastPhoton.z
      age := fastPhoton.age + 1 } : Particle) hmph
  have hflags := applyBoundaryConditions_flags escapeUniverse
    ({ fastPhoton with
      x := fastPhoton.x + fastPhoton.vx * escapeUniverse.dt
      y := fastPhoton.y + fastPhoton.vy * escapeUniverse.dt
      z := if escapeUniverse.mode3D = true then
          fastPhoton.z + fastPhoton.vz * escapeUniverse.dt
        else fastPhoton.z
      age := fastPhoton.age + 1 } : Particle)
  have hx : ((step srcConfig (constRng 1) escapeUniverse).particles.getD 0 particle0).x
      = 5 / 2 := by
    rw [hpart, hform, habc.1]
    rw [show ({ fastPhoton with
        x := fastPhoton.x + fastPhoton.vx * escapeUniverse.dt
        y := fastPhoton.y + fastPhoton.vy * escapeUniverse.dt
        z := if escapeUniverse.mode3D = true then
            fastPhoton.z + fastPhoton.vz * escapeUniverse.dt
          else fastPhoton.z
        age := fastPhoton.age + 1 } : Particle).x = -(5 / 2) by
      norm_num [fastPhoton, newParticle, escapeUniverse, baseUniverse, mkUniverse]]
    rw [show escapeUniverse.size = (1 : ℝ) from rfl]
    unfold reflectCoord
    rw [if_pos (by norm_num : (-(5 / 2) : ℝ) < 0)]
    norm_num
  refine ⟨?_, hx, rfl, ?_⟩
  · rw [hpart, hform, hflags.1]
    exact hmph
  · rw [hx, show escapeUniverse.size = (1 : ℝ) from rfl]
    norm_num

theorem shapeEq_refl (p : Particle) : shapeEq p p :=
  ⟨rfl, rfl, rfl, rfl, rfl, rfl, rfl⟩

theorem shapeEq_trans {p q r : Particle} (h1 : shapeEq p q) (h2 : shapeEq q r) :
    shapeEq p r := by
  obtain ⟨a1, b1, c1, d1, e1, f1, g1⟩ := h1
  obtain ⟨a2, b2, c2, d2, e2, f2, g2⟩ := h2
  exact ⟨a1.trans a2, b1.trans b2, c1.trans c2, d1.trans d2, e1.trans e2,
    f1.trans f2, g1.trans g2⟩

theorem listShapeEq_refl (ps : List Particle) : listShapeEq ps ps :=
  ⟨rfl, fun _ => shapeEq_refl _⟩

theorem listShapeEq_trans {ps qs rs : List Particle} (h1 : listShapeEq ps qs)
    (h2 : listShapeEq qs rs) : listShapeEq ps rs :=
  ⟨h1.1.trans h2.1, fun i => shapeEq_trans (h1.2 i) (h2.2 i)⟩

theorem pgetD_set_self (ps : List Particle) (j : ℕ) (v : Particle)
    (h : j < ps.length) : (ps.set j v).getD j particle0 = v := by
  rw [List.getD_eq_getElem?_getD, List.getElem?_set_self h]
  rfl

theorem pgetD_set_ne (ps : List Particle) (i j : ℕ) (v : Particle) (h : j ≠ i) :
    (ps.set j v).getD i particle0 = ps.getD i particle0 := by
  rw [List.getD_eq_getElem?_getD, List.getElem?_set_ne h, ← List.getD_eq_getElem?_getD]

theorem absorbs_particle0 (U : Universe) (p : Particle) : ¬ absorbs U p particle0 := by
  rintro ⟨⟨hc, -⟩, -, -⟩
  norm_num [particle0] at hc

theorem absorbs_shape_congr (U : Universe) {p p' e e' : Particle}
    (hp : shapeEq p p') (he : shapeEq e e') : absorbs U p e ↔ absorbs U p' e' := by
  obtain ⟨px, py, pz, -, -, pa, -⟩ := hp
  obtain ⟨ex, ey, ez, ec, eph, -, -⟩ := he
  simp only [absorbs, collisionDistance]
  rw [px, py, pz, pa, ex, ey, ez, ec, eph]

theorem shapeEq_absorbEnergy (U : Universe) (e : Particle) (E : ℝ) (rng : ℕ → ℝ) :
    shapeEq (absorbEnergy U e E rng).1 e := by
  simp only [absorbEnergy]
  split_ifs <;> exact ⟨rfl, rfl, rfl, rfl, rfl, rfl, rfl⟩

theorem listShapeEq_set (ps : List Particle) (j : ℕ) (v : Particle)
    (hv : shapeEq v (ps.getD j particle0)) : listShapeEq (ps.set j v) ps := by
  refine ⟨List.length_set ps j v, fun i => ?_⟩
  by_cases hij : j = i
  · subst hij
    by_cases hj : j < ps.length
    · rw [pgetD_set_self ps j v hj]
      exact hv
    · rw [List.getD_eq_getElem?_getD, List.getElem?_eq_none (by
        rw [List.length_set]
        omega)]
      rw [List.getD_eq_getElem?_getD ps, List.getElem?_eq_none (by omega)]
      exact shapeEq_refl _
  · rw [pgetD_set_ne ps i j v hij]
    exact shapeEq_refl _

theorem absorbScan_shape (U : Universe) (photon : Particle) :
    ∀ (idxs : List ℕ) (ps : List Particle) (rng : ℕ → ℝ),
      listShapeEq (absorbScan U photon idxs ps rng).1 ps := by
  intro idxs
  induction idxs with
  | nil => intro ps rng; exact listShapeEq_refl ps
  | cons j rest ih =>
    intro ps rng
    simp only [absorbScan]
    by_cases h : absorbs U photon (ps.getD j particle0)
    · rw [if_pos h]
      exact listShapeEq_set ps j _ (shapeEq_absorbEnergy U _ _ rng)
    · rw [if_neg h]
      exact ih ps rng

theorem absorbScan_hit (U : Universe) (photon : Particle) :
    ∀ (idxs : List ℕ) (ps : List Particle) (rng : ℕ → ℝ),
      (absorbScan U photon idxs ps rng).2.2 = true ↔
        ∃ j ∈ idxs, absorbs U photon (ps.getD j particle0) := by
  intro idxs
  induction idxs with
  | nil =>
    intro ps rng
    simp [absorbScan]
  | cons j rest ih =>
    intro ps rng
    simp only [absorbScan]
    by_cases h : absorbs U photon (ps.getD j particle0)
    · rw [if_pos h]
      constructor
      · intro _
        exact ⟨j, List.mem_cons_self _ _, h⟩
      · intro _
        rfl
    · rw [if_neg h, ih ps rng]
      constructor
      · rintro ⟨j', hj', habs⟩
        exact ⟨j', List.mem_cons_of_mem _ hj', habs⟩
      · rintro ⟨j', hj', habs⟩
        rcases List.mem_cons.mp hj' with h1 | h1
        · subst h1
          exact absurd habs h
        · exact ⟨j', h1, habs⟩

theorem absorbScan_none (U : Universe) (photon : Particle) :
    ∀ (idxs : List ℕ) (ps : List Particle) (rng : ℕ → ℝ),
      (∀ i ∈ idxs, ¬ absorbs U photon (ps.getD i particle0)) →
      absorbScan U photon idxs ps rng = (ps, rng, false) := by
  intro idxs
  induction idxs with
  | nil => intro ps rng _; rfl
  | cons j rest ih =>
    intro ps rng h
    simp only [absorbScan]
    rw [if_neg (h j (List.mem_cons_self _ _))]
    exact ih ps rng (fun i hi => h i (List.mem_cons_of_mem _ hi))

theorem absorbScan_first (U : Universe) (photon : Particle) :
    ∀ (l₁ : List ℕ) (j : ℕ) (l₂ : List ℕ) (ps : List Particle) (rng : ℕ → ℝ),
      (∀ i ∈ l₁, ¬ absorbs U photon (ps.getD i particle0)) →
      absorbs U photon (ps.getD j particle0) →
      absorbScan U photon (l₁ ++ j :: l₂) ps rng
        = (ps.set j (absorbEnergy U (ps.getD j particle0) photon.energy rng).1,
           (absorbEnergy U (ps.getD j particle0) photon.energy rng).2, true) := by
  intro l₁
  induction l₁ with
  | nil =>
    intro j l₂ ps rng _ habs
    simp only [List.nil_append, absorbScan]
    rw [if_pos habs]
  | cons i rest ih =>
    intro j l₂ ps rng h habs
    simp only [List.cons_append, absorbScan]
    rw [if_neg (h i (List.mem_cons_self _ _))]
    exact ih j l₂ ps rng (fun i' hi' => h i' (List.mem_cons_of_mem _ hi')) habs

theorem exists_absorbs_range_iff (U : Universe) (photon : Particle) (ps : List Particle) :
    (∃ j ∈ List.range ps.length, absorbs U photon (ps.getD j particle0)) ↔
      ∃ j, absorbs U photon (ps.getD j particle0) := by
  constructor
  · rintro ⟨j, -, h⟩
    exact ⟨j, h⟩
  · rintro ⟨j, h⟩
    by_cases hj : j < ps.length
    · exact ⟨j, List.mem_range.mpr hj, h⟩
    · have h0 : ps.getD j particle0 = particle0 := by
        rw [List.getD_eq_getElem?_getD, List.getElem?_eq_none (by omega)]
        rfl
      rw [h0] at h
      exact absurd h (absorbs_particle0 U photon)

theorem absorbSweep_inv (U : Universe) (ps0 : List Particle) :
    ∀ (idxs : List ℕ) (ps : List Particle) (rem : List ℕ) (rng : ℕ → ℝ),
      listShapeEq ps ps0 →
      listShapeEq (absorbSweep U idxs (ps, rem, rng)).1 ps0 ∧
      (∀ i, i ∈ (absorbSweep U idxs (ps, rem, rng)).2.1 ↔
        (i ∈ rem ∨ (i ∈ idxs ∧ (ps0.getD i particle0).isPhoton = true ∧
          ∃ j, absorbs U (ps0.getD i particle0) (ps0.getD j particle0)))) := by
  intro idxs
  induction idxs with
  | nil =>
    intro ps rem rng hsh
    refine ⟨hsh, fun i => ?_⟩
    simp [absorbSweep]
  | cons i₀ rest ih =>
    intro ps rem rng hsh
    simp only [absorbSweep]
    by_cases hph : (ps.getD i₀ particle0).isPhoton = true
    · rw [if_pos hph]
      set sc := absorbScan U (ps.getD i₀ particle0) (List.range ps.length) ps rng with hsc
      have hscansh : listShapeEq sc.1 ps0 := by
        rw [hsc]
        exact listShapeEq_trans
          (absorbScan_shape U (ps.getD i₀ particle0) (List.range ps.length) ps rng) hsh
      have hbit : sc.2.2 = true ↔
          ∃ j ∈ List.range ps.length, absorbs U (ps.getD i₀ particle0)
            (ps.getD j particle0) := by
        rw [hsc]
        exact absorbScan_hit U (ps.getD i₀ particle0) (List.range ps.length) ps rng
      have hCiff : sc.2.2 = true ↔
          ∃ j, absorbs U (ps0.getD i₀ particle0) (ps0.getD j particle0) := by
        rw [hbit, exists_absorbs_range_iff U (ps.getD i₀ particle0) ps]
        constructor
        · rintro ⟨j, hj⟩
          exact ⟨j, (absorbs_shape_congr U (hsh.2 i₀) (hsh.2 j)).mp hj⟩
        · rintro ⟨j, hj⟩
          exact ⟨j, (absorbs_shape_congr U (hsh.2 i₀) (hsh.2 j)).mpr hj⟩
      have hph0 : (ps0.getD i₀ particle0).isPhoton = true := by
        rw [← (hsh.2 i₀).2.2.2.2.1]
        exact hph
      by_cases hb : sc.2.2 = true
      · rw [if_pos hb]
        obtain ⟨hsh', hmem'⟩ := ih sc.1 (rem ++ [i₀]) sc.2.1 hscansh
        refine ⟨hsh', fun i => ?_⟩
        rw [hmem' i]
        have hC0 : (ps0.getD i₀ particle0).isPhoton = true ∧
            ∃ j, absorbs U (ps0.getD i₀ particle0) (ps0.getD j particle0) :=
          ⟨hph0, hCiff.mp hb⟩
        simp only [List.mem_append, List.mem_singleton, List.mem_cons]
        constructor
        · rintro ((h | h | h) | ⟨h1, h2⟩)
          · exact Or.inl h
          · exact Or.inr ⟨Or.inl h, by rw [h]; exact hC0⟩
          · exact absurd h (List.not_mem_nil i)
          · exact Or.inr ⟨Or.inr h1, h2⟩
        · rintro (h | ⟨h1 | h1, h2⟩)
          · exact Or.inl (Or.inl h)
          · exact Or.inl (Or.inr (Or.inl h1))
          · exact Or.inr ⟨h1, h2⟩
      · rw [if_neg hb]
        obtain ⟨hsh', hmem'⟩ := ih sc.1 rem sc.2.1 hscansh
        refine ⟨hsh', fun i => ?_⟩
        rw [hmem' i]
        have hnC : ¬ ∃ j, absorbs U (ps0.getD i₀ particle0) (ps0.getD j particle0) :=
          fun hc => hb (hCiff.mpr hc)
        simp only [List.mem_cons]
        constructor
        · rintro (h | ⟨h1, h2⟩)
          · exact Or.inl h
          · exact Or.inr ⟨Or.inr h1, h2⟩
        · rintro (h | ⟨h1 | h1, h2, h3⟩)
          · exact Or.inl h
          · subst h1
            exact absurd h3 hnC
          · exact Or.inr ⟨h1, h2, h3⟩
    · rw [if_neg hph]
      obtain ⟨hsh', hmem'⟩ := ih ps rem rng hsh
      refine ⟨hsh', fun i => ?_⟩
      rw [hmem' i]
      have hph0 : (ps0.getD i₀ particle0).isPhoton = false := by
        rw [← (hsh.2 i₀).2.2.2.2.1]
        rw [Bool.not_eq_true] at hph
        exact hph
      simp only [List.mem_cons]
      constructor
      · rintro (h | ⟨h1, h2⟩)
        · exact Or.inl h
        · exact Or.inr ⟨Or.inr h1, h2⟩
      · rintro (h | ⟨h1 | h1, h2, h3⟩)
        · exact Or.inl h
        · subst h1
          rw [hph0] at h2
          exact absurd h2 Bool.false_ne_true
        · exact Or.inr ⟨h1, h2, h3⟩

theorem absorbSweep_pairwise (U : Universe) :
    ∀ (idxs : List ℕ) (ps : List Particle) (rem : List ℕ) (rng : ℕ → ℝ),
      (rem ++ idxs).Pairwise (· < ·) →
      (absorbSweep U idxs (ps, rem, rng)).2.1.Pairwise (· < ·) := by
  intro idxs
  induction idxs with
  | nil =>
    intro ps rem rng h
    rw [List.append_nil] at h
    simpa [absorbSweep] using h
  | cons i₀ rest ih =>
    intro ps rem rng h
    simp only [absorbSweep]
    by_cases hph : (ps.getD i₀ particle0).isPhoton = true
    · rw [if_pos hph]
      by_cases hb : (absorbScan U (ps.getD i₀ particle0) (List.range ps.length)
          ps rng).2.2 = true
      · rw [if_pos hb]
        refine ih _ _ _ ?_
        rw [List.append_assoc, List.singleton_append]
        exact h
      · rw [if_neg hb]
        refine ih _ _ _ ?_
        exact List.Pairwise.sublist
          (List.Sublist.append_left (List.sublist_cons_self _ _) rem) h
    · rw [if_neg hph]
      refine ih _ _ _ ?_
      exact List.Pairwise.sublist
        (List.Sublist.append_left (List.sublist_cons_self _ _) rem) h

theorem survivors_all_lt (rem : List ℕ) :
    ∀ (ps : List Particle) (k : ℕ), (∀ i ∈ rem, i < k) → survivors rem k ps = ps := by
  intro ps
  induction ps with
  | nil => intro k _; rfl
  | cons p ps ih =>
    intro k h
    simp only [survivors]
    rw [if_neg (fun hk => absurd (h k hk) (lt_irrefl k)),
      ih (k + 1) (fun i hi => Nat.lt_succ_of_lt (h i hi))]

theorem survivors_append_last (rem : List ℕ) (m : ℕ) (hlt : ∀ i ∈ rem, i < m) :
    ∀ (ps : List Particle) (k : ℕ), k ≤ m →
      survivors (rem ++ [m]) k ps = survivors rem k (ps.eraseIdx (m - k)) := by
  intro ps
  induction ps with
  | nil => intro k _; rfl
  | cons p ps ih =>
    intro k hk
    rcases Nat.lt_or_ge k m with hkm | hkm
    · have hmk : m - k = (m - (k + 1)) + 1 := by omega
      rw [hmk, List.eraseIdx_cons_succ]
      simp only [survivors]
      by_cases hkr : k ∈ rem
      · rw [if_pos (List.mem_append.mpr (Or.inl hkr)), if_pos hkr, ih (k + 1) hkm]
      · have hkn : ¬ k ∈ rem ++ [m] := by
          simp only [List.mem_append, List.mem_singleton]
          rintro (h | h)
          · exact hkr h
          · omega
        rw [if_neg hkn, if_neg hkr, ih (k + 1) hkm]
    · have hkm' : k = m := le_antisymm hk hkm
      subst hkm'
      rw [Nat.sub_self, List.eraseIdx_cons_zero]
      simp only [survivors]
      have hball : ∀ i ∈ rem ++ [k], i < k + 1 := by
        intro i hi
        rcases List.mem_append.mp hi with h | h
        · exact Nat.lt_succ_of_lt (hlt i h)
        · rw [List.mem_singleton] at h
          omega
      rw [if_pos (List.mem_append.mpr (Or.inr (List.mem_singleton.mpr rfl))),
        survivors_all_lt (rem ++ [k]) ps (k + 1) hball,
        survivors_all_lt rem ps k hlt]

theorem eraseFold_eq_survivors :
    ∀ (rem : List ℕ) (ps : List Particle),
      rem.Pairwise (· < ·) → (∀ i ∈ rem, i < ps.length) →
      rem.reverse.foldl (fun l i => l.eraseIdx i) ps = survivors rem 0 ps := by
  intro rem
  induction rem using List.reverseRecOn with
  | nil =>
    intro ps _ _
    rw [List.reverse_nil, List.foldl_nil,
      survivors_all_lt [] ps 0 (fun i hi => absurd hi (List.not_mem_nil i))]
  | append_singleton rem' m ih =>
    intro ps hpw hbd
    rw [List.reverse_append, List.reverse_singleton, List.singleton_append, List.foldl_cons]
    have hlt : ∀ i ∈ rem', i < m := by
      intro i hi
      exact (List.pairwise_append.mp hpw).2.2 i hi m (List.mem_singleton.mpr rfl)
    have hm : m < ps.length :=
      hbd m (List.mem_append.mpr (Or.inr (List.mem_singleton.mpr rfl)))
    have hbd' : ∀ i ∈ rem', i < (ps.eraseIdx m).length := by
      intro i hi
      rw [List.length_eraseIdx]
      have h1 := hlt i hi
      split_ifs <;> omega
    rw [ih (ps.eraseIdx m) (List.pairwise_append.mp hpw).1 hbd',
      survivors_append_last rem' m hlt ps 0 (Nat.zero_le m), Nat.sub_zero]

/-- C1: during `handlePhotonElectronCollisions`, a photon is removed if and
only if it is a photon of the pre-sweep list and some electron (negative
charge, not a photon) lies strictly inside `photonAbsorptionDistance` of it
while its age has reached `photonMinAgeForAbsorption` (`absorbs` is exactly
that condition, so an under-age photon is never removed even at distance 0,
and a photon with no electron inside the threshold is never removed
regardless of age); the final particle list is the pre-removal sweep list
with exactly the marked photon positions spliced out; and the per-photon
electron scan stops at the first qualifying electron, transferring the
photon's energy to that single electron (one `set`), while a scan with no
qualifying electron changes nothing. -/
theorem photon_absorption_iff (rng : ℕ → ℝ) (U : Universe) :
    (∀ i, i ∈ removedIndices rng U ↔
      (i < U.particles.length ∧ (U.particles.getD i particle0).isPhoton = true ∧
        ∃ j, absorbs U (U.particles.getD i particle0) (U.particles.getD j particle0))) ∧
    (handlePhotonElectronCollisions rng U).1.particles
      = survivors (removedIndices rng U) 0 (sweptParticles rng U) ∧
    (∀ (photon : Particle) (l₁ : List ℕ) (j : ℕ) (l₂ : List ℕ) (ps : List Particle)
        (rng' : ℕ → ℝ),
      (∀ i ∈ l₁, ¬ absorbs U photon (ps.getD i particle0)) →
      absorbs U photon (ps.getD j particle0) →
      absorbScan U photon (l₁ ++ j :: l₂) ps rng'
        = (ps.set j (absorbEnergy U (ps.getD j particle0) photon.energy rng').1,
           (absorbEnergy U (ps.getD j particle0) photon.energy rng').2, true)) ∧
    (∀ (photon : Particle) (idxs : List ℕ) (ps : List Particle) (rng' : ℕ → ℝ),
      (∀ i ∈ idxs, ¬ absorbs U photon (ps.getD i particle0)) →
      absorbScan U photon idxs ps rng' = (ps, rng', false)) := by
  have hinv := absorbSweep_inv U U.particles (List.range U.particles.length)
    U.particles [] rng (listShapeEq_refl _)
  refine ⟨?_, ?_, ?_, ?_⟩
  · intro i
    have h := hinv.2 i
    simpa only [List.not_mem_nil, false_or, List.mem_range, and_assoc] using h
  · have hpw : (removedIndices rng U).Pairwise (· < ·) := by
      refine absorbSweep_pairwise U (List.range U.particles.length) U.particles [] rng ?_
      rw [List.nil_append]
      exact List.pairwise_lt_range _
    have hbd : ∀ i ∈ removedIndices rng U, i < (sweptParticles rng U).length := by
      intro i hi
      have hlen : (sweptParticles rng U).length = U.particles.length := hinv.1.1
      rcases (hinv.2 i).mp hi with h | h
      · exact absurd h (List.not_mem_nil i)
      · rw [hlen]
        exact List.mem_range.mp h.1
    show (removedIndices rng U).reverse.foldl (fun l i => l.eraseIdx i)
        (sweptParticles rng U)
      = survivors (removedIndices rng U) 0 (sweptParticles rng U)
    exact eraseFold_eq_survivors (removedIndices rng U) (sweptParticles rng U) hpw hbd
  · intro photon l₁ j l₂ ps rng' h1 h2
    exact absorbScan_first U photon l₁ j l₂ ps rng' h1 h2
  · intro photon idxs ps rng' h1
    exact absorbScan_none U photon idxs ps rng' h1
